import Mathlib

/-!
# The Fritzing test probe server

A shallow embedding of `src/testing/FTesting.cpp`: the probe registry `FTesting`
and the per-connection worker `FTestingServerThread` (`run`, `writeResponse`). The load
errors of a part file, `src/model/floaderror.cpp` and `src/model/fzpinfo.cpp`, follow in
a section of their own.

Conventions of the embedding.

* A `QString` and a `std::string` are a Lean `String` (a sequence of Unicode scalar
  values); `toStdString` and `fromStdString` between them are the identity, and a
  `QByteArray` is the list of its bytes.
* The worker is sequential code acting on the outside world. Its run is a function
  from what the world supplies (the header text read from the socket, the outcome
  of each `tryLock`, the registry, the application state the probes act on) to the
  ordered list of `Event`s it performs and the application state it leaves.
* `DebugDialog::debug` calls only log and are left out of the event list.
* `QUrl::fromPercentEncoding` is Qt library code. The call
  `QUrl::fromPercentEncoding(x.toUtf8())` is a parameter of `run`, a function on strings,
  so every statement about `run` holds for whatever decoder is supplied.
-/

namespace Fritzing

/-! ## Qt string operations used by the server -/

/-- Worker of `split`: `cur` is the part read so far, `sep` tells the separator
characters. A separator closes the current part, which is kept only when it is not
empty (`Qt::SkipEmptyParts`). -/
def splitGo (sep : Char → Bool) : List Char → List Char → List (List Char)
  | [], cur => if cur = [] then [] else [cur]
  | c :: cs, cur =>
    if sep c then
      if cur = [] then splitGo sep cs [] else cur :: splitGo sep cs []
    else splitGo sep cs (cur ++ [c])

/-- `QString::split(sep, Qt::SkipEmptyParts)` for a separator that matches runs of the
characters satisfying `sep`: the parts are the maximal runs of other characters. -/
def split (sep : Char → Bool) (s : String) : List String :=
  (splitGo sep s.data []).map String.mk

/-- The static `line_end` of `run`, `QRegularExpression("[ \r\n][ \r\n]*")`: a match is a
run of spaces, carriage returns and line feeds. -/
def line_end (c : Char) : Bool :=
  c = ' ' || c = '\r' || c = '\n'

/-- The separator of `split("/", ...)`. -/
def slash (c : Char) : Bool :=
  c = '/'

/-- `QString::toUtf8()`: the bytes of the UTF-8 encoding. -/
def toUtf8 (s : String) : List UInt8 :=
  s.toUTF8.data.toList

/-- `QString::startsWith(QChar)`. -/
def startsWith (s : String) (c : Char) : Bool :=
  s.data.head? = some c

/-- Value of an ASCII decimal digit, `none` for any other character. -/
def digitValue (c : Char) : Option Nat :=
  if '0' ≤ c ∧ c ≤ '9' then some (c.toNat - '0'.toNat) else none

/-- A piece of a format string as `QString::arg` reads it: a plain character, or a
place marker with its number and the characters that spell it. -/
inductive ArgPart where
  | chr (c : Char)
  | marker (n : Nat) (raw : List Char)
  deriving DecidableEq, Repr

/-- The digits of a place marker: one or two decimal digits (`%1` .. `%99`). Gives the
marker number and how many characters were read. -/
def escapeDigits : List Char → Option (Nat × Nat)
  | [] => none
  | [d1] => (digitValue d1).map fun a => (a, 1)
  | d1 :: d2 :: _ =>
    match digitValue d1, digitValue d2 with
    | some a, some b => some (10 * a + b, 2)
    | some a, none => some (a, 1)
    | none, _ => none

/-- What follows a `%`: an optional `L`, then the digits. Gives the marker number and how
many characters after the `%` belong to the marker. -/
def escapeAt : List Char → Option (Nat × Nat)
  | [] => none
  | c :: cs =>
    if c = 'L' then (escapeDigits cs).map fun r => (r.1, r.2 + 1)
    else escapeDigits (c :: cs)

/-- Scan of a format string into its pieces; `skip` counts the characters that still
belong to the marker just read. -/
def argScan : List Char → Nat → List ArgPart
  | [], _ => []
  | _ :: cs, skip + 1 => argScan cs skip
  | c :: cs, 0 =>
    if c = '%' then
      match escapeAt cs with
      | some (n, k) => ArgPart.marker n (c :: cs.take k) :: argScan cs k
      | none => ArgPart.chr c :: argScan cs 0
    else ArgPart.chr c :: argScan cs 0

/-- The lowest marker number among the pieces that is not below `lo`. -/
def lowestMarker (lo : Nat) : List ArgPart → Option Nat
  | [] => none
  | ArgPart.chr _ :: ps => lowestMarker lo ps
  | ArgPart.marker n _ :: ps =>
    if lo ≤ n then
      match lowestMarker lo ps with
      | some m => some (min n m)
      | none => some n
    else lowestMarker lo ps

/-- The text of the pieces after the substitution `sub`: a marker whose number `sub`
maps to a text is replaced by it, every other piece stays as written. -/
def fillParts (sub : Nat → Option (List Char)) : List ArgPart → List Char
  | [] => []
  | ArgPart.chr c :: ps => c :: fillParts sub ps
  | ArgPart.marker n raw :: ps =>
    match sub n with
    | some a => a ++ fillParts sub ps
    | none => raw ++ fillParts sub ps

/-- `QString::arg(const QString &a)`: every occurrence of the lowest-numbered place
marker is replaced by `a`; a string without a marker is returned unchanged. -/
def arg (s a : String) : String :=
  let ps := argScan s.data 0
  match lowestMarker 0 ps with
  | none => s
  | some m => String.mk (fillParts (fun n => if n = m then some a.data else none) ps)

/-- `QString::arg(const QString &a1, const QString &a2)`: the two lowest-numbered place
markers are replaced by `a1` and `a2` in one pass, so that a marker inside `a1` is not
read again. -/
def arg2 (s a1 a2 : String) : String :=
  let ps := argScan s.data 0
  match lowestMarker 0 ps with
  | none => s
  | some m1 =>
    String.mk (fillParts
      (fun n => if n = m1 then some a1.data
                else if lowestMarker (m1 + 1) ps = some n then some a2.data else none) ps)

/-- `QString::arg(int a)` and `QString::arg(qsizetype a)`: the number in decimal. -/
def argInt (s : String) (a : Int) : String :=
  arg s (toString a)

/-! ## Values and probes -/

/-- Qt's `qreal`, the coordinate of a point. The server looks at a coordinate only through
`QString::arg(double)`, so a coordinate is kept as the text that call prints for it
(floating-point formatting is outside the embedding). -/
structure qreal where
  text : String
  deriving DecidableEq, Repr

/-- Qt's `QVariant`, with the kinds of value the spec names for a probe, "a
dynamically-typed scalar (numeric, string, or a 2D point value)", and the invalid
variant `QVariant()`. -/
inductive QVariant where
  | invalid
  | string (s : String)
  | int (n : Int)
  | pointF (x y : qreal)
  deriving DecidableEq, Repr

/-- `QVariant::typeId() == QMetaType::QPointF`. -/
def QVariant.isPointF : QVariant → Bool
  | QVariant.pointF _ _ => true
  | _ => false

/-- `QVariant::toString()`: the text of a string, the decimal form of a number, and the
empty string for a value with no conversion to a string. -/
def QVariant.toString : QVariant → String
  | QVariant.invalid => ""
  | QVariant.string s => s
  | QVariant.int n => ToString.toString n
  | QVariant.pointF _ _ => ""

/-- `QVariant::toPointF()`: the point of a point value, the null point otherwise. -/
def QVariant.toPointF : QVariant → qreal × qreal
  | QVariant.pointF x y => (x, y)
  | _ => (⟨"0"⟩, ⟨"0"⟩)

/-- Modelled from the spec: the probe interface `FProbe` (`FProbe.h` is not in the
sources), "Probe { name() -> string; read() -> optional<Value>; write(Value) }". The
virtual `read` and `write` act on the application state `σ`. -/
structure FProbe (σ : Type) where
  name : String
  read : σ → Option QVariant × σ
  write : QVariant → σ → σ

/-- What a worker does to the outside world, in order. -/
inductive Event where
  /-- `Q_EMIT error(socket->error())` -/
  | error
  /-- one call of `m_busy.tryLock()` with its result -/
  | tryLock (acquired : Bool)
  /-- `read()` of the probe registered under `name` -/
  | read (name : String)
  /-- `write(param)` of the probe registered under `name` -/
  | write (name : String) (param : QVariant)
  /-- one call `writeResponse(socket, code, codeString, mimeType, message)` -/
  | writeResponse (code : Int) (codeString mimeType message : String)
  /-- `m_busy.unlock()` -/
  | unlock
  deriving DecidableEq, Repr

/-! ## `FTesting`: the probe registry -/

/-- The singleton `FTesting`, reduced to its registry `m_probeMap`. The member is declared
in `FTesting.h`, which is not in the sources; `FTesting.cpp` uses it as a map from
`std::string` to `FProbe*` (`operator[]`, `erase`, `find`, `it->second`). It is kept as an
association list with one entry a name. -/
structure FTesting (σ : Type) where
  m_probeMap : List (String × FProbe σ)

/-- `m_probeMap.find(name)`: the probe stored under `name`, if any. -/
def FTesting.find {σ : Type} (t : FTesting σ) (name : String) : Option (FProbe σ) :=
  t.m_probeMap.lookup name

/-- `FTesting::addProbe`: `m_probeMap[probe->name()] = probe`. -/
def FTesting.addProbe {σ : Type} (t : FTesting σ) (probe : FProbe σ) : FTesting σ :=
  ⟨(probe.name, probe) :: t.m_probeMap.filter fun e => e.1 != probe.name⟩

/-- `FTesting::removeProbe`: `m_probeMap.erase(name)`. -/
def FTesting.removeProbe {σ : Type} (t : FTesting σ) (name : String) : FTesting σ :=
  ⟨t.m_probeMap.filter fun e => e.1 != name⟩

/-- `FTesting::readProbe`: the value read from the probe under `name`, `std::nullopt`
when there is none. Also gives the probe calls made and the state left. -/
def FTesting.readProbe {σ : Type} (t : FTesting σ) (name : String) (s : σ) :
    Option QVariant × List Event × σ :=
  match t.find name with
  | some probe => ((probe.read s).1, [Event.read name], (probe.read s).2)
  | none => (none, [], s)

/-- `FTesting::writeProbe`: writes `param` to the probe under `name`, and does nothing
when there is none. Gives the probe calls made and the state left. -/
def FTesting.writeProbe {σ : Type} (t : FTesting σ) (name : String) (param : QVariant)
    (s : σ) : List Event × σ :=
  match t.find name with
  | some probe => ([Event.write name param], probe.write param s)
  | none => ([], s)

/-! ## `FTestingServerThread`: one connection -/

/-- `FTestingServerThread::writeResponse`, lines 209-210: the local `type`. -/
def contentType (mimeType : String) : String :=
  if mimeType.isEmpty then "text/plain" else mimeType

/-- `FTestingServerThread::writeResponse`, lines 212-221: the local `header` before its
conversion to bytes; `messageBytes` is `toUtf8 message`. -/
def responseHeader (code : Int) (codeString mimeType message : String) : String :=
  argInt
    (arg2
      (argInt
        "HTTP/1.0 %1 %2\r\nContent-Type: %3; charset=utf-8\r\nContent-Length: %4\r\nConnection: close\r\n\r\n"
        code)
      codeString (contentType mimeType))
    (toUtf8 message).length

/-- `FTestingServerThread::writeResponse`: the bytes written to the socket, first
`header`, then `messageBytes`. -/
def FTestingServerThread.writeResponse (code : Int) (codeString mimeType message : String) :
    List UInt8 :=
  toUtf8 (responseHeader code codeString mimeType message) ++ toUtf8 message

/-- The response as the spec words it, to compare `writeResponse` with:
`HTTP/1.0 <code> <text>\r\nContent-Type: <mime>; charset=utf-8\r\nContent-Length: <n>\r\n`
`Connection: close\r\n\r\n<body>`, in UTF-8, where `<n>` is the number of bytes of the body
and `<mime>` is `text/plain` when the given mime type is empty. -/
def specResponse (code : Int) (text mime body : String) : List UInt8 :=
  toUtf8 ("HTTP/1.0 " ++ toString code ++ " " ++ text ++ "\r\nContent-Type: " ++
    (if mime = "" then "text/plain" else mime) ++ "; charset=utf-8\r\nContent-Length: " ++
    toString (toUtf8 body).length ++ "\r\nConnection: close\r\n\r\n") ++ toUtf8 body

/-- `run`, line 158. -/
def waitInterval : Nat := 100

/-- `run`, line 159. -/
def timeoutSeconds : Nat := 2 * 60

/-- `run`, line 160. -/
def attempts : Nat := timeoutSeconds * 1000 / waitInterval

/-- `run`, lines 161-167: the loop `for (int i = 0; i < attempts; i++)` from index `i`
with `n` iterations left. `tryLock j` is the outcome of the `j`-th call of
`m_busy.tryLock()`. Gives `gotLock` and the calls made. -/
def lockLoop (tryLock : Nat → Bool) : Nat → Nat → Bool × List Event
  | 0, _ => (false, [])
  | n + 1, i =>
    if tryLock i then (true, [Event.tryLock true])
    else ((lockLoop tryLock n (i + 1)).1, Event.tryLock false :: (lockLoop tryLock n (i + 1)).2)

/-- `run`, lines 187-192: the local `result`, the text of a value that was read. -/
def resultText (probeResult : QVariant) : String :=
  if probeResult.isPointF then
    arg (arg "%1 %2" probeResult.toPointF.1.text) probeResult.toPointF.2.text
  else probeResult.toString

/-- `run`, lines 195-198: the local `mimeType` of a value that was read. -/
def resultMimeType (result : String) : String :=
  if startsWith result '{' || startsWith result '[' then "application/json" else "text/plain"

/-- `run`, lines 174-204: the probe operation made with the gate held, the response and
the release of the gate. -/
def dispatch {σ : Type} (fTesting : FTesting σ) (command readOrWrite param : String)
    (s : σ) : List Event × σ :=
  if readOrWrite = "write" then
    let w := fTesting.writeProbe command (QVariant.string param) s
    (w.1 ++ [Event.writeResponse 200 "OK" "text/plain" "", Event.unlock], w.2)
  else
    match fTesting.readProbe command s with
    | (none, calls, s1) =>
      (calls ++ [Event.writeResponse 404 "Not Found" "text/plain" "Probe not found",
        Event.unlock], s1)
    | (some probeResult, calls, s1) =>
      (calls ++ [Event.writeResponse 200 "OK" (resultMimeType (resultText probeResult))
        (resultText probeResult), Event.unlock], s1)

/-- `run`, lines 158-205: the gate is tried `attempts` times; without it the answer is
503, with it the probe is dispatched. -/
def locked {σ : Type} (tryLock : Nat → Bool) (fTesting : FTesting σ)
    (command readOrWrite param : String) (s : σ) : List Event × σ :=
  if (lockLoop tryLock attempts 0).1 then
    ((lockLoop tryLock attempts 0).2 ++ (dispatch fTesting command readOrWrite param s).1,
      (dispatch fTesting command readOrWrite param s).2)
  else
    ((lockLoop tryLock attempts 0).2 ++
      [Event.writeResponse 503 "Service Unavailable" "" "Server busy."], s)

/-- `FTestingServerThread::run`. `socketOk` is the result of `setSocketDescriptor`,
`header` the text of the lines read from the socket, `s` the application state. Gives
the events of the run in order and the application state it leaves. -/
def FTestingServerThread.run {σ : Type} (fromPercentEncoding : String → String)
    (tryLock : Nat → Bool) (fTesting : FTesting σ) (socketOk : Bool) (header : String)
    (s : σ) : List Event × σ :=
  if socketOk = false then ([Event.error], s)
  else
    match split line_end header with
    | [] => ([Event.writeResponse 400 "Bad Request" "" ""], s)
    | verb :: afterVerb =>
      if verb ≠ "GET" then ([Event.writeResponse 405 "Method Not Allowed" "" ""], s)
      else
        match afterVerb with
        | [] => ([Event.writeResponse 400 "Bad Request" "" ""], s)
        | path :: _ =>
          match split slash path with
          | [] => ([Event.writeResponse 400 "Bad Request" "" ""], s)
          | first :: params =>
            match params with
            | [] => ([Event.writeResponse 400 "Bad Request" "" ""], s)
            | readOrWrite :: params =>
              if readOrWrite = "write" then
                match params with
                | [] => ([Event.writeResponse 400 "Bad Request" "" ""], s)
                | param :: _ =>
                  locked tryLock fTesting (fromPercentEncoding first) readOrWrite
                    (fromPercentEncoding param) s
              else locked tryLock fTesting (fromPercentEncoding first) readOrWrite "" s

/-! ## Reading a run -/

/-- The probe calls among the events. -/
def probeCalls (es : List Event) : List Event :=
  es.filter fun e => match e with
    | Event.read _ => true
    | Event.write _ _ => true
    | _ => false

/-- The responses among the events. -/
def responses (es : List Event) : List Event :=
  es.filter fun e => match e with
    | Event.writeResponse _ _ _ _ => true
    | _ => false

/-- Value of a hexadecimal digit, `none` for any other character. -/
def hexValue (c : Char) : Option Nat :=
  if '0' ≤ c ∧ c ≤ '9' then some (c.toNat - '0'.toNat)
  else if 'a' ≤ c ∧ c ≤ 'f' then some (c.toNat - 'a'.toNat + 10)
  else if 'A' ≤ c ∧ c ≤ 'F' then some (c.toNat - 'A'.toNat + 10)
  else none

/-- Scan of `asciiDecode`; `skip` counts the characters of the escape just read. -/
def asciiDecodeScan : List Char → Nat → List Char
  | [], _ => []
  | _ :: cs, skip + 1 => asciiDecodeScan cs skip
  | c :: cs, 0 =>
    match cs with
    | h :: l :: _ =>
      match hexValue h, hexValue l with
      | some a, some b =>
        if c = '%' ∧ 16 * a + b < 128 then Char.ofNat (16 * a + b) :: asciiDecodeScan cs 2
        else c :: asciiDecodeScan cs 0
      | _, _ => c :: asciiDecodeScan cs 0
    | _ => c :: asciiDecodeScan cs 0

/-- A percent decoder to run the server on examples: an escape `%XY` of two hexadecimal
digits with value below 128 becomes that character, every other character stays. On
text whose escapes are all of this kind it is `QUrl::fromPercentEncoding`. -/
def asciiDecode (s : String) : String :=
  String.mk (asciiDecodeScan s.data 0)

/-! ## An example registry -/

/-- A probe for the examples: its read gives `value` and leaves the state alone, its
write puts the parameter in front of the state, the list of the values written. -/
def exampleProbe (name : String) (value : Option QVariant) : FProbe (List QVariant) :=
  ⟨name, fun s => (value, s), fun param s => param :: s⟩

/-- The probe `voltage` of the example of the spec, which reads the point (3, 4). -/
def voltageProbe : FProbe (List QVariant) :=
  exampleProbe "voltage" (some (QVariant.pointF ⟨"3"⟩ ⟨"4"⟩))

/-- A probe whose read gives a JSON object after a blank. -/
def blankJsonProbe : FProbe (List QVariant) :=
  exampleProbe "json" (some (QVariant.string " \x7b\"a\":1\x7d"))

/-- A probe whose read gives a JSON list. -/
def listProbe : FProbe (List QVariant) :=
  exampleProbe "list" (some (QVariant.string "[1,2]"))

/-- A registry with the three example probes. -/
def exampleRegistry : FTesting (List QVariant) :=
  ((FTesting.mk []).addProbe listProbe |>.addProbe blankJsonProbe).addProbe voltageProbe

/-- The calls of `m_busy.tryLock()` among the events. -/
def lockAttempts (es : List Event) : List Event :=
  es.filter fun e => match e with
    | Event.tryLock _ => true
    | _ => false

/-! ## `FLoadError` and `FzpInfo`: the load errors of a part file

`src/model/floaderror.cpp` and `src/model/fzpinfo.cpp`. A `std::filesystem::path` is the
`String` of its text. `QObject::tr` looks a text up in the installed translations and is
a parameter `tr`; without a translation it gives the text back. The operator `%` between
strings in `FLoadError::toString` is the concatenation of `QStringBuilder`. -/

/-- `FLoadError::Location`. -/
structure FLoadError.Location where
  name : String
  line : Int
  column : Int
  substring : String
  deriving DecidableEq, Repr

/-- The data of an `FLoadError`. -/
structure FLoadError where
  m_message : String
  m_description : String
  m_location : FLoadError.Location
  m_blocker : Bool
  deriving DecidableEq, Repr

/-- `FLoadError::FLoadError(QString filepath)`. -/
def FLoadError.ofPath (filepath : String) : FLoadError :=
  ⟨"", "", ⟨filepath, 0, 0, ""⟩, true⟩

/-- `FLoadError::getMessage`. -/
def FLoadError.getMessage (e : FLoadError) : String := e.m_message

/-- `FLoadError::getDescription`. -/
def FLoadError.getDescription (e : FLoadError) : String := e.m_description

/-- `FLoadError::getLocation`. -/
def FLoadError.getLocation (e : FLoadError) : FLoadError.Location := e.m_location

/-- `FLoadError::isBlocker`. -/
def FLoadError.isBlocker (e : FLoadError) : Bool := e.m_blocker

/-- `FLoadError::setMessage`. -/
def FLoadError.setMessage (e : FLoadError) (message : String) : FLoadError :=
  { e with m_message := message }

/-- `FLoadError::setDescription`. -/
def FLoadError.setDescription (e : FLoadError) (description : String) : FLoadError :=
  { e with m_description := description }

/-- `FLoadError::setBlocker`. -/
def FLoadError.setBlocker (e : FLoadError) (blocker : Bool) : FLoadError :=
  { e with m_blocker := blocker }

/-- `FLoadError::setLine`. -/
def FLoadError.setLine (e : FLoadError) (line : Int) : FLoadError :=
  { e with m_location := { e.m_location with line := line } }

/-- `FLoadError::setColumn`. -/
def FLoadError.setColumn (e : FLoadError) (column : Int) : FLoadError :=
  { e with m_location := { e.m_location with column := column } }

/-- `QString::number(int)`. -/
def number (n : Int) : String :=
  toString n

/-- `FLoadError::toString`. Each `%` of the source is a concatenation. -/
def FLoadError.toString (e : FLoadError) : String :=
  let result := "%1: %2\n" ++ (if e.m_blocker then "Error" else "Warning") ++ e.m_message
  let result :=
    if ¬ e.m_description.isEmpty then result ++ "Description: %1\n" ++ e.m_description
    else result
  if ¬ e.m_location.name.isEmpty then
    let result := result ++ "File: %1\n" ++ e.m_location.name
    let result :=
      if e.m_location.line > 0 then
        result ++ "Line: %1, Column: %2\n" ++ number e.m_location.line ++
          number e.m_location.column
      else result
    if ¬ e.m_location.substring.isEmpty then
      result ++ "Context: %1\n" ++ e.m_location.substring
    else result
  else result

/-- The data of an `FzpInfo`. -/
structure FzpInfo where
  m_moduleId : String
  m_fritzingVersion : String
  m_title : String
  m_path : String
  m_errors : List FLoadError
  deriving DecidableEq, Repr

/-- `FzpInfo::FzpInfo(QString path, QObject* parent)`. -/
def FzpInfo.ofPath (path : String) : FzpInfo :=
  ⟨"", "", "", path, []⟩

/-- `FzpInfo::hasAnyErrors`. -/
def FzpInfo.hasAnyErrors (info : FzpInfo) : Bool :=
  !info.m_errors.isEmpty

/-- `FzpInfo::hasBlockingErrors`. -/
def FzpInfo.hasBlockingErrors (info : FzpInfo) : Bool :=
  info.m_errors.any fun error => error.isBlocker

/-- `FzpInfo::createLoadError`. -/
def FzpInfo.createLoadError (info : FzpInfo) (title message : String) (isBlocker : Bool)
    (line column : Int) : FLoadError :=
  let error := FLoadError.ofPath info.m_path
  let error := error.setMessage title
  let error := error.setDescription message
  let error := error.setBlocker isBlocker
  let error := if line ≥ 0 then error.setLine line else error
  if column ≥ 0 then error.setColumn column else error

/-- `FzpInfo::addError(title, message, line, column)`; the source gives `line` and
`column` the default -1. -/
def FzpInfo.addError (info : FzpInfo) (title message : String) (line column : Int) :
    FzpInfo :=
  { info with m_errors := info.m_errors ++ [info.createLoadError title message true line column] }

/-- `FzpInfo::addError(message)`. -/
def FzpInfo.addErrorMessage (tr : String → String) (info : FzpInfo) (message : String) :
    FzpInfo :=
  info.addError (tr "Error") message (-1) (-1)

/-- `FzpInfo::addWarning(title, message, line, column)`; the source gives `line` and
`column` the default -1. -/
def FzpInfo.addWarning (info : FzpInfo) (title message : String) (line column : Int) :
    FzpInfo :=
  { info with m_errors := info.m_errors ++ [info.createLoadError title message false line column] }

/-- `FzpInfo::addWarning(message)`. -/
def FzpInfo.addWarningMessage (tr : String → String) (info : FzpInfo) (message : String) :
    FzpInfo :=
  info.addWarning (tr "Warning") message (-1) (-1)

/-- `FzpInfo::getDetailsText`, the body of the loop: `details` after the entry `error`. -/
def detailsStep (tr : String → String) (details : String) (error : FLoadError) : String :=
  let details := details ++ (error.getMessage ++ "\n")
  let details := details ++ "─────────────────────────\n"
  let details := details ++ (error.getDescription ++ "\n")
  let details :=
    if error.getLocation.line ≥ 0 then
      details ++ argInt (argInt (tr "Location: Line %1, Column %2\n") error.getLocation.line)
        error.getLocation.column
    else details
  details ++ "\n"

/-- `FzpInfo::getDetailsText`. -/
def FzpInfo.getDetailsText (tr : String → String) (info : FzpInfo) : String :=
  info.m_errors.foldl (detailsStep tr) ""

/-- One call of an overload of `addError` or `addWarning`, with its arguments. -/
inductive AddCall where
  | addErrorMessage (message : String)
  | addError (title message : String) (line column : Int)
  | addWarningMessage (message : String)
  | addWarning (title message : String) (line column : Int)
  deriving DecidableEq, Repr

/-- Whether the call is one of `addError`. -/
def AddCall.isError : AddCall → Bool
  | AddCall.addErrorMessage _ => true
  | AddCall.addError _ _ _ _ => true
  | AddCall.addWarningMessage _ => false
  | AddCall.addWarning _ _ _ _ => false

/-- The `FzpInfo` after one call. -/
def FzpInfo.call (tr : String → String) (info : FzpInfo) : AddCall → FzpInfo
  | AddCall.addErrorMessage message => info.addErrorMessage tr message
  | AddCall.addError title message line column => info.addError title message line column
  | AddCall.addWarningMessage message => info.addWarningMessage tr message
  | AddCall.addWarning title message line column => info.addWarning title message line column

/-- The `FzpInfo` after a sequence of calls, made in order. -/
def FzpInfo.calls (tr : String → String) (info : FzpInfo) (cs : List AddCall) : FzpInfo :=
  cs.foldl (FzpInfo.call tr) info

/-! ## Lemmas on `split` -/

theorem splitGo_append_clean (sep : Char → Bool) (t r : List Char)
    (ht : ∀ c ∈ t, sep c = false) (cur : List Char) :
    splitGo sep (t ++ r) cur = splitGo sep r (cur ++ t) := by
  induction t generalizing cur with
  | nil => simp
  | cons c t ih =>
    have hc : sep c = false := ht c (List.mem_cons_self c t)
    have ht2 : ∀ d ∈ t, sep d = false := fun d hd => ht d (List.mem_cons_of_mem c hd)
    simp [splitGo, hc, ih ht2]

theorem splitGo_sep_cons (sep : Char → Bool) (c : Char) (r cur : List Char)
    (hc : sep c = true) (hcur : cur ≠ []) :
    splitGo sep (c :: r) cur = cur :: splitGo sep r [] := by
  simp [splitGo, hc, hcur]

theorem splitGo_skip_sep (sep : Char → Bool) (c : Char) (r : List Char) (hc : sep c = true) :
    splitGo sep (c :: r) [] = splitGo sep r [] := by
  simp [splitGo, hc]

/-- A clean, non-empty text followed by a separator is the first part. -/
theorem splitGo_part_cons (sep : Char → Bool) (t r : List Char) (c : Char)
    (ht : ∀ d ∈ t, sep d = false) (hne : t ≠ []) (hc : sep c = true) :
    splitGo sep (t ++ c :: r) [] = t :: splitGo sep r [] := by
  rw [splitGo_append_clean sep t (c :: r) ht, List.nil_append, splitGo_sep_cons sep c r t hc hne]

/-- A clean, non-empty text at the end is the last part. -/
theorem splitGo_part_end (sep : Char → Bool) (t : List Char)
    (ht : ∀ d ∈ t, sep d = false) (hne : t ≠ []) :
    splitGo sep t [] = [t] := by
  have h := splitGo_append_clean sep t [] ht []
  simp only [List.append_nil, List.nil_append] at h
  rw [h]
  simp [splitGo, hne]

/-- Every part is made of characters of the text or of the part under way, and none of
the characters taken from the text is a separator. -/
theorem splitGo_mem_chars (sep : Char → Bool) (l : List Char) :
    ∀ (cur t : List Char), t ∈ splitGo sep l cur →
      ∀ c ∈ t, c ∈ cur ∨ (c ∈ l ∧ sep c = false) := by
  induction l with
  | nil =>
    intro cur t ht c hc
    by_cases hcur : cur = []
    · simp [splitGo, hcur] at ht
    · simp [splitGo, hcur] at ht
      subst ht
      exact Or.inl hc
  | cons d l ih =>
    intro cur t ht c hc
    by_cases hd : sep d = true
    · by_cases hcur : cur = []
      · simp [splitGo, hd, hcur] at ht
        rcases ih [] t ht c hc with h | h
        · simp at h
        · exact Or.inr ⟨List.mem_cons_of_mem d h.1, h.2⟩
      · simp [splitGo, hd, hcur] at ht
        rcases ht with ht | ht
        · subst ht
          exact Or.inl hc
        · rcases ih [] t ht c hc with h | h
          · simp at h
          · exact Or.inr ⟨List.mem_cons_of_mem d h.1, h.2⟩
    · have hd2 : sep d = false := by simpa using hd
      simp [splitGo, hd2] at ht
      rcases ih (cur ++ [d]) t ht c hc with h | h
      · rcases List.mem_append.mp h with h | h
        · exact Or.inl h
        · have : c = d := by simpa using h
          subst this
          exact Or.inr ⟨List.mem_cons_self _ _, hd2⟩
      · exact Or.inr ⟨List.mem_cons_of_mem d h.1, h.2⟩

/-- No part is empty. -/
theorem splitGo_mem_ne_nil (sep : Char → Bool) (l : List Char) :
    ∀ (cur t : List Char), t ∈ splitGo sep l cur → t ≠ [] := by
  induction l with
  | nil =>
    intro cur t ht
    by_cases hcur : cur = []
    · simp [splitGo, hcur] at ht
    · simp [splitGo, hcur] at ht
      subst ht
      exact hcur
  | cons d l ih =>
    intro cur t ht
    by_cases hd : sep d = true
    · by_cases hcur : cur = []
      · simp [splitGo, hd, hcur] at ht
        exact ih [] t ht
      · simp [splitGo, hd, hcur] at ht
        rcases ht with ht | ht
        · subst ht
          exact hcur
        · exact ih [] t ht
    · have hd2 : sep d = false := by simpa using hd
      simp [splitGo, hd2] at ht
      exact ih _ t ht

/-- A part of `split` is not empty, has no separator, and is made of characters of the
text. -/
theorem split_mem (sep : Char → Bool) (s t : String) (h : t ∈ split sep s) :
    t.data ≠ [] ∧ ∀ c ∈ t.data, c ∈ s.data ∧ sep c = false := by
  unfold split at h
  rcases List.mem_map.mp h with ⟨l, hl, rfl⟩
  refine ⟨splitGo_mem_ne_nil sep s.data [] l hl, fun c hc => ?_⟩
  rcases splitGo_mem_chars sep s.data [] l hl c hc with h1 | h1
  · simp at h1
  · exact h1

/-- The tokens of a request line `GET <path><tail>`, where `path` has no separator and
`tail` is empty or starts with one. -/
theorem splitGo_request (p tl : List Char) (hp : p ≠ [])
    (hclean : ∀ c ∈ p, line_end c = false)
    (htl : ∀ c, tl.head? = some c → line_end c = true) :
    splitGo line_end ('G' :: 'E' :: 'T' :: ' ' :: (p ++ tl)) [] =
      ['G', 'E', 'T'] :: p :: splitGo line_end tl [] := by
  have h1 : splitGo line_end ('G' :: 'E' :: 'T' :: ' ' :: (p ++ tl)) [] =
      ['G', 'E', 'T'] :: splitGo line_end (p ++ tl) [] :=
    splitGo_part_cons line_end ['G', 'E', 'T'] (p ++ tl) ' ' (by decide) (by decide) (by decide)
  rw [h1]
  cases tl with
  | nil =>
    rw [List.append_nil, splitGo_part_end line_end p hclean hp]
    simp [splitGo]
  | cons c cs =>
    have hc : line_end c = true := htl c rfl
    rw [splitGo_part_cons line_end p cs c hclean hp hc, splitGo_skip_sep line_end c cs hc]

theorem split_request (path tail : String) (hp : path.data ≠ [])
    (hclean : ∀ c ∈ path.data, line_end c = false)
    (htl : ∀ c, tail.data.head? = some c → line_end c = true) :
    split line_end ("GET " ++ path ++ tail) = "GET" :: path :: split line_end tail := by
  have hd : ("GET " ++ path ++ tail).data = 'G' :: 'E' :: 'T' :: ' ' :: (path.data ++ tail.data) := by
    simp [String.data_append]
  unfold split
  rw [hd, splitGo_request path.data tail.data hp hclean htl]
  rfl

/-- The segments of a path `/<a>/<b>`. -/
theorem split_path_two (a b : String) (ha : a.data ≠ []) (hb : b.data ≠ [])
    (hca : ∀ c ∈ a.data, slash c = false) (hcb : ∀ c ∈ b.data, slash c = false) :
    split slash ("/" ++ a ++ "/" ++ b) = [a, b] := by
  have hd : ("/" ++ a ++ "/" ++ b).data = '/' :: (a.data ++ '/' :: b.data) := by
    simp [String.data_append]
  unfold split
  rw [hd, splitGo_skip_sep slash '/' _ (by decide),
    splitGo_part_cons slash a.data b.data '/' hca ha (by decide),
    splitGo_part_end slash b.data hcb hb]
  rfl

/-- The segments of a path `/<a>/<b>/<c>`. -/
theorem split_path_three (a b c : String) (ha : a.data ≠ []) (hb : b.data ≠ [])
    (hc : c.data ≠ [])
    (hca : ∀ x ∈ a.data, slash x = false) (hcb : ∀ x ∈ b.data, slash x = false)
    (hcc : ∀ x ∈ c.data, slash x = false) :
    split slash ("/" ++ a ++ "/" ++ b ++ "/" ++ c) = [a, b, c] := by
  have hd : ("/" ++ a ++ "/" ++ b ++ "/" ++ c).data =
      '/' :: (a.data ++ '/' :: (b.data ++ '/' :: c.data)) := by
    simp [String.data_append]
  unfold split
  rw [hd, splitGo_skip_sep slash '/' _ (by decide),
    splitGo_part_cons slash a.data _ '/' hca ha (by decide),
    splitGo_part_cons slash b.data c.data '/' hcb hb (by decide),
    splitGo_part_end slash c.data hcc hc]
  rfl

/-! ## Lemmas on the gate loop -/

theorem lockLoop_events (tryLock : Nat → Bool) (n : Nat) :
    ∀ i, ∀ e ∈ (lockLoop tryLock n i).2, ∃ b, e = Event.tryLock b := by
  induction n with
  | zero => intro i e he; simp [lockLoop] at he
  | succ n ih =>
    intro i e he
    by_cases h : tryLock i = true
    · simp [lockLoop, h] at he
      exact ⟨true, he⟩
    · simp [lockLoop, h] at he
      rcases he with he | he
      · exact ⟨false, he⟩
      · exact ih (i + 1) e he

theorem lockLoop_got (tryLock : Nat → Bool) (n : Nat) :
    ∀ i, (lockLoop tryLock n i).1 = true ↔ ∃ j, i ≤ j ∧ j < i + n ∧ tryLock j = true := by
  induction n with
  | zero => intro i; simp [lockLoop]; intro j h1 h2; omega
  | succ n ih =>
    intro i
    by_cases h : tryLock i = true
    · simp [lockLoop, h]
      exact ⟨i, le_refl i, by omega, h⟩
    · simp only [lockLoop, h, if_false, Bool.false_eq_true]
      rw [ih (i + 1)]
      constructor
      · rintro ⟨j, h1, h2, h3⟩
        exact ⟨j, by omega, by omega, h3⟩
      · rintro ⟨j, h1, h2, h3⟩
        have hne : j ≠ i := fun hji => h (hji ▸ h3)
        exact ⟨j, by omega, by omega, h3⟩

theorem probeCalls_lockLoop (tryLock : Nat → Bool) (n i : Nat) :
    probeCalls (lockLoop tryLock n i).2 = [] := by
  unfold probeCalls
  rw [List.filter_eq_nil_iff]
  intro e he
  rcases lockLoop_events tryLock n i e he with ⟨b, rfl⟩
  simp

theorem responses_lockLoop (tryLock : Nat → Bool) (n i : Nat) :
    responses (lockLoop tryLock n i).2 = [] := by
  unfold responses
  rw [List.filter_eq_nil_iff]
  intro e he
  rcases lockLoop_events tryLock n i e he with ⟨b, rfl⟩
  simp

/-! ## The branches of `run` -/

theorem locked_of_gate {σ : Type} (tryLock : Nat → Bool) (fTesting : FTesting σ)
    (command readOrWrite param : String) (s : σ)
    (hgate : ∃ j, j < attempts ∧ tryLock j = true) :
    locked tryLock fTesting command readOrWrite param s =
      ((lockLoop tryLock attempts 0).2 ++ (dispatch fTesting command readOrWrite param s).1,
        (dispatch fTesting command readOrWrite param s).2) := by
  have h : (lockLoop tryLock attempts 0).1 = true := by
    rw [lockLoop_got]
    rcases hgate with ⟨j, h1, h2⟩
    exact ⟨j, Nat.zero_le j, by omega, h2⟩
  simp [locked, h]

theorem run_read_branch {σ : Type} (dec : String → String) (tryLock : Nat → Bool)
    (fTesting : FTesting σ) (header path first readOrWrite : String) (rest more : List String)
    (s : σ) (htok : split line_end header = "GET" :: path :: rest)
    (hseg : split slash path = first :: readOrWrite :: more) (hrw : readOrWrite ≠ "write") :
    FTestingServerThread.run dec tryLock fTesting true header s =
      locked tryLock fTesting (dec first) readOrWrite "" s := by
  simp [FTestingServerThread.run, htok, hseg, hrw]

theorem run_write_branch {σ : Type} (dec : String → String) (tryLock : Nat → Bool)
    (fTesting : FTesting σ) (header path first param : String) (rest more : List String)
    (s : σ) (htok : split line_end header = "GET" :: path :: rest)
    (hseg : split slash path = first :: "write" :: param :: more) :
    FTestingServerThread.run dec tryLock fTesting true header s =
      locked tryLock fTesting (dec first) "write" (dec param) s := by
  simp [FTestingServerThread.run, htok, hseg]

theorem dispatch_write_found {σ : Type} (fTesting : FTesting σ) (command param : String)
    (probe : FProbe σ) (s : σ) (hfind : fTesting.find command = some probe) :
    dispatch fTesting command "write" param s =
      ([Event.write command (QVariant.string param),
        Event.writeResponse 200 "OK" "text/plain" "", Event.unlock],
        probe.write (QVariant.string param) s) := by
  simp [dispatch, FTesting.writeProbe, hfind]

theorem dispatch_write_missing {σ : Type} (fTesting : FTesting σ) (command param : String)
    (s : σ) (hfind : fTesting.find command = none) :
    dispatch fTesting command "write" param s =
      ([Event.writeResponse 200 "OK" "text/plain" "", Event.unlock], s) := by
  simp [dispatch, FTesting.writeProbe, hfind]

theorem dispatch_read_value {σ : Type} (fTesting : FTesting σ)
    (command readOrWrite param : String) (probe : FProbe σ) (v : QVariant) (s s1 : σ)
    (hrw : readOrWrite ≠ "write") (hfind : fTesting.find command = some probe)
    (hread : probe.read s = (some v, s1)) :
    dispatch fTesting command readOrWrite param s =
      ([Event.read command,
        Event.writeResponse 200 "OK" (resultMimeType (resultText v)) (resultText v),
        Event.unlock], s1) := by
  simp [dispatch, FTesting.readProbe, hfind, hread, hrw]

theorem dispatch_read_empty {σ : Type} (fTesting : FTesting σ)
    (command readOrWrite param : String) (probe : FProbe σ) (s s1 : σ)
    (hrw : readOrWrite ≠ "write") (hfind : fTesting.find command = some probe)
    (hread : probe.read s = (none, s1)) :
    dispatch fTesting command readOrWrite param s =
      ([Event.read command,
        Event.writeResponse 404 "Not Found" "text/plain" "Probe not found",
        Event.unlock], s1) := by
  simp [dispatch, FTesting.readProbe, hfind, hread, hrw]

theorem dispatch_read_missing {σ : Type} (fTesting : FTesting σ)
    (command readOrWrite param : String) (s : σ)
    (hrw : readOrWrite ≠ "write") (hfind : fTesting.find command = none) :
    dispatch fTesting command readOrWrite param s =
      ([Event.writeResponse 404 "Not Found" "text/plain" "Probe not found",
        Event.unlock], s) := by
  simp [dispatch, FTesting.readProbe, hfind, hrw]

/-- A read does not look at the text of the second segment nor at the parameter. -/
theorem dispatch_read_congr {σ : Type} (fTesting : FTesting σ)
    (command rw1 rw2 p1 p2 : String) (s : σ) (h1 : rw1 ≠ "write") (h2 : rw2 ≠ "write") :
    dispatch fTesting command rw1 p1 s = dispatch fTesting command rw2 p2 s := by
  simp [dispatch, h1, h2]

theorem dispatch_read_no_write {σ : Type} (fTesting : FTesting σ)
    (command readOrWrite param : String) (s : σ) (hrw : readOrWrite ≠ "write")
    (name : String) (v : QVariant) :
    Event.write name v ∉ (dispatch fTesting command readOrWrite param s).1 := by
  cases hfind : fTesting.find command with
  | none => simp [dispatch, FTesting.readProbe, hfind, hrw]
  | some probe =>
    cases hread : (probe.read s).1 with
    | none => simp [dispatch, FTesting.readProbe, hfind, hrw, hread]
    | some r => simp [dispatch, FTesting.readProbe, hfind, hrw, hread]

theorem locked_read_congr {σ : Type} (tryLock : Nat → Bool) (fTesting : FTesting σ)
    (command rw1 rw2 p1 p2 : String) (s : σ) (h1 : rw1 ≠ "write") (h2 : rw2 ≠ "write") :
    locked tryLock fTesting command rw1 p1 s = locked tryLock fTesting command rw2 p2 s := by
  simp only [locked, dispatch_read_congr fTesting command rw1 rw2 p1 p2 s h1 h2]

theorem locked_read_no_write {σ : Type} (tryLock : Nat → Bool) (fTesting : FTesting σ)
    (command readOrWrite param : String) (s : σ) (hrw : readOrWrite ≠ "write")
    (name : String) (v : QVariant) :
    Event.write name v ∉ (locked tryLock fTesting command readOrWrite param s).1 := by
  intro hmem
  unfold locked at hmem
  split at hmem
  · rcases List.mem_append.mp hmem with h | h
    · rcases lockLoop_events tryLock attempts 0 _ h with ⟨b, hb⟩
      cases hb
    · exact dispatch_read_no_write fTesting command readOrWrite param s hrw name v h
  · rcases List.mem_append.mp hmem with h | h
    · rcases lockLoop_events tryLock attempts 0 _ h with ⟨b, hb⟩
      cases hb
    · simp at h

/-- The request line `GET /<a>/read<tail>` has the tokens `GET` and `/<a>/read`, and the
path has the segments `<a>` and `read`. -/
theorem split_read_line (a tail : String) (ha : a.data ≠ [])
    (hclean : ∀ c ∈ a.data, line_end c = false ∧ slash c = false)
    (htail : ∀ c, tail.data.head? = some c → line_end c = true) :
    split line_end ("GET /" ++ a ++ "/read" ++ tail) =
        "GET" :: ("/" ++ a ++ "/" ++ "read") :: split line_end tail ∧
      split slash ("/" ++ a ++ "/" ++ "read") = [a, "read"] := by
  have heq : "GET /" ++ a ++ "/read" ++ tail = "GET " ++ ("/" ++ a ++ "/" ++ "read") ++ tail := by
    apply String.ext
    simp [String.data_append]
  constructor
  · rw [heq]
    apply split_request
    · simp [String.data_append]
    · intro c hc
      simp only [String.data_append, List.mem_append] at hc
      rcases hc with ((hc | hc) | hc) | hc
      · revert c; decide
      · exact (hclean c hc).1
      · revert c; decide
      · revert c; decide
    · exact htail
  · exact split_path_two a "read" ha (by decide) (fun c hc => (hclean c hc).2) (by decide)

/-- The request line `GET /<a>/write/<b><tail>`. -/
theorem split_write_line (a b tail : String) (ha : a.data ≠ []) (hb : b.data ≠ [])
    (hca : ∀ c ∈ a.data, line_end c = false ∧ slash c = false)
    (hcb : ∀ c ∈ b.data, line_end c = false ∧ slash c = false)
    (htail : ∀ c, tail.data.head? = some c → line_end c = true) :
    split line_end ("GET /" ++ a ++ "/write/" ++ b ++ tail) =
        "GET" :: ("/" ++ a ++ "/" ++ "write" ++ "/" ++ b) :: split line_end tail ∧
      split slash ("/" ++ a ++ "/" ++ "write" ++ "/" ++ b) = [a, "write", b] := by
  have heq : "GET /" ++ a ++ "/write/" ++ b ++ tail =
      "GET " ++ ("/" ++ a ++ "/" ++ "write" ++ "/" ++ b) ++ tail := by
    apply String.ext
    simp [String.data_append]
  constructor
  · rw [heq]
    apply split_request
    · simp [String.data_append]
    · intro c hc
      simp only [String.data_append, List.mem_append] at hc
      rcases hc with ((((hc | hc) | hc) | hc) | hc) | hc
      · revert c; decide
      · exact (hca c hc).1
      · revert c; decide
      · revert c; decide
      · revert c; decide
      · exact (hcb c hc).1
    · exact htail
  · exact split_path_three a "write" b ha (by decide) hb (fun c hc => (hca c hc).2) (by decide)
      (fun c hc => (hcb c hc).2)

/-! ## The responses of a run -/

/-- The events of the probe operation under the gate: what `dispatch` can do. -/
theorem dispatch_events {σ : Type} (fTesting : FTesting σ)
    (command readOrWrite param : String) (s : σ) :
    (∃ calls, (∀ e ∈ calls, ∃ v, e = Event.write command v) ∧
      (dispatch fTesting command readOrWrite param s).1 =
        calls ++ [Event.writeResponse 200 "OK" "text/plain" "", Event.unlock]) ∨
    (∃ calls, (∀ e ∈ calls, e = Event.read command) ∧
      (dispatch fTesting command readOrWrite param s).1 =
        calls ++ [Event.writeResponse 404 "Not Found" "text/plain" "Probe not found",
          Event.unlock]) ∨
    (∃ v, (dispatch fTesting command readOrWrite param s).1 =
      [Event.read command,
        Event.writeResponse 200 "OK" (resultMimeType (resultText v)) (resultText v),
        Event.unlock]) := by
  by_cases hrw : readOrWrite = "write"
  · left
    cases hfind : fTesting.find command with
    | none => exact ⟨[], by simp, by simp [dispatch, FTesting.writeProbe, hfind, hrw]⟩
    | some probe =>
      exact ⟨[Event.write command (QVariant.string param)], by simp,
        by simp [dispatch, FTesting.writeProbe, hfind, hrw]⟩
  · right
    cases hfind : fTesting.find command with
    | none =>
      left
      exact ⟨[], by simp, by simp [dispatch, FTesting.readProbe, hfind, hrw]⟩
    | some probe =>
      cases hread : (probe.read s).1 with
      | none =>
        left
        exact ⟨[Event.read command], by simp,
          by simp [dispatch, FTesting.readProbe, hfind, hrw, hread]⟩
      | some v =>
        right
        exact ⟨v, by simp [dispatch, FTesting.readProbe, hfind, hrw, hread]⟩

/-- The responses `dispatch` can write. -/
theorem dispatch_response_mem {σ : Type} (fTesting : FTesting σ)
    (command readOrWrite param : String) (s : σ) (code : Int)
    (codeString mimeType message : String)
    (h : Event.writeResponse code codeString mimeType message ∈
      (dispatch fTesting command readOrWrite param s).1) :
    (code = 200 ∧ codeString = "OK" ∧ mimeType = "text/plain" ∧ message = "" ∧
      ∀ name, Event.read name ∉ (dispatch fTesting command readOrWrite param s).1) ∨
    (code = 404 ∧ codeString = "Not Found" ∧ mimeType = "text/plain" ∧
      message = "Probe not found") ∨
    (∃ v, code = 200 ∧ codeString = "OK" ∧ mimeType = resultMimeType (resultText v) ∧
      message = resultText v) := by
  rcases dispatch_events fTesting command readOrWrite param s with
    ⟨calls, hcalls, heq⟩ | ⟨calls, hcalls, heq⟩ | ⟨v, heq⟩
  · left
    rw [heq] at h ⊢
    rcases List.mem_append.mp h with h1 | h1
    · rcases hcalls _ h1 with ⟨v, hv⟩
      cases hv
    · simp at h1
      obtain ⟨rfl, rfl, rfl, rfl⟩ := h1
      refine ⟨rfl, rfl, rfl, rfl, fun name hmem => ?_⟩
      rcases List.mem_append.mp hmem with h2 | h2
      · rcases hcalls _ h2 with ⟨v, hv⟩
        cases hv
      · simp at h2
  · right; left
    rw [heq] at h
    rcases List.mem_append.mp h with h1 | h1
    · have := hcalls _ h1
      cases this
    · simp at h1
      exact h1
  · right; right
    rw [heq] at h
    simp at h
    exact ⟨v, h⟩

/-- The responses `locked` can write. -/
theorem locked_response_mem {σ : Type} (tryLock : Nat → Bool) (fTesting : FTesting σ)
    (command readOrWrite param : String) (s : σ) (code : Int)
    (codeString mimeType message : String)
    (h : Event.writeResponse code codeString mimeType message ∈
      (locked tryLock fTesting command readOrWrite param s).1) :
    (code = 503 ∧ codeString = "Service Unavailable" ∧ mimeType = "" ∧
      message = "Server busy.") ∨
    (code = 200 ∧ codeString = "OK" ∧ mimeType = "text/plain" ∧ message = "" ∧
      ∀ name, Event.read name ∉ (locked tryLock fTesting command readOrWrite param s).1) ∨
    (code = 404 ∧ codeString = "Not Found" ∧ mimeType = "text/plain" ∧
      message = "Probe not found") ∨
    (∃ v, code = 200 ∧ codeString = "OK" ∧ mimeType = resultMimeType (resultText v) ∧
      message = resultText v) := by
  unfold locked at h ⊢
  split at h
  · rename_i hgot
    rw [if_pos hgot]
    rcases List.mem_append.mp h with h1 | h1
    · rcases lockLoop_events tryLock attempts 0 _ h1 with ⟨b, hb⟩
      cases hb
    · right
      rcases dispatch_response_mem fTesting command readOrWrite param s code codeString
          mimeType message h1 with ⟨a1, a2, a3, a4, a5⟩ | h2 | h2
      · left
        refine ⟨a1, a2, a3, a4, fun name hmem => ?_⟩
        rcases List.mem_append.mp hmem with h3 | h3
        · rcases lockLoop_events tryLock attempts 0 _ h3 with ⟨b, hb⟩
          cases hb
        · exact a5 name h3
      · exact Or.inr (Or.inl h2)
      · exact Or.inr (Or.inr h2)
  · left
    rcases List.mem_append.mp h with h1 | h1
    · rcases lockLoop_events tryLock attempts 0 _ h1 with ⟨b, hb⟩
      cases hb
    · simp at h1
      exact h1

/-- The events of a run: the socket error, a rejection of the request line, or what
`locked` does for some command, second segment and parameter. -/
theorem run_events {σ : Type} (dec : String → String) (tryLock : Nat → Bool)
    (fTesting : FTesting σ) (socketOk : Bool) (header : String) (s : σ) :
    (FTestingServerThread.run dec tryLock fTesting socketOk header s).1 = [Event.error] ∨
    (FTestingServerThread.run dec tryLock fTesting socketOk header s).1 =
      [Event.writeResponse 400 "Bad Request" "" ""] ∨
    (FTestingServerThread.run dec tryLock fTesting socketOk header s).1 =
      [Event.writeResponse 405 "Method Not Allowed" "" ""] ∨
    ∃ command readOrWrite param,
      FTestingServerThread.run dec tryLock fTesting socketOk header s =
        locked tryLock fTesting command readOrWrite param s := by
  unfold FTestingServerThread.run
  split
  · exact Or.inl rfl
  · split
    · exact Or.inr (Or.inl rfl)
    · split
      · exact Or.inr (Or.inr (Or.inl rfl))
      · split
        · exact Or.inr (Or.inl rfl)
        · split
          · exact Or.inr (Or.inl rfl)
          · split
            · exact Or.inr (Or.inl rfl)
            · split
              · split
                · exact Or.inr (Or.inl rfl)
                · exact Or.inr (Or.inr (Or.inr ⟨_, _, _, rfl⟩))
              · exact Or.inr (Or.inr (Or.inr ⟨_, _, _, rfl⟩))

/-- The responses a run can write. -/
theorem run_response_mem {σ : Type} (dec : String → String) (tryLock : Nat → Bool)
    (fTesting : FTesting σ) (socketOk : Bool) (header : String) (s : σ) (code : Int)
    (codeString mimeType message : String)
    (h : Event.writeResponse code codeString mimeType message ∈
      (FTestingServerThread.run dec tryLock fTesting socketOk header s).1) :
    (code = 400 ∧ codeString = "Bad Request" ∧ mimeType = "" ∧ message = "") ∨
    (code = 405 ∧ codeString = "Method Not Allowed" ∧ mimeType = "" ∧ message = "") ∨
    (code = 503 ∧ codeString = "Service Unavailable" ∧ mimeType = "" ∧
      message = "Server busy.") ∨
    (code = 200 ∧ codeString = "OK" ∧ mimeType = "text/plain" ∧ message = "" ∧
      ∀ name, Event.read name ∉
        (FTestingServerThread.run dec tryLock fTesting socketOk header s).1) ∨
    (code = 404 ∧ codeString = "Not Found" ∧ mimeType = "text/plain" ∧
      message = "Probe not found") ∨
    (∃ v, code = 200 ∧ codeString = "OK" ∧ mimeType = resultMimeType (resultText v) ∧
      message = resultText v) := by
  rcases run_events dec tryLock fTesting socketOk header s with h1 | h1 | h1 | ⟨c, r, p, h1⟩
  · rw [h1] at h
    simp at h
  · rw [h1] at h
    simp at h
    exact Or.inl h
  · rw [h1] at h
    simp at h
    exact Or.inr (Or.inl h)
  · rw [h1] at h ⊢
    exact Or.inr (Or.inr (locked_response_mem tryLock fTesting c r p s code codeString
      mimeType message h))

/-! ## Lemmas on `QString::arg` -/

theorem argScan_clean_append (l r : List Char) (hl : ∀ c ∈ l, c ≠ '%') :
    argScan (l ++ r) 0 = l.map ArgPart.chr ++ argScan r 0 := by
  induction l with
  | nil => simp
  | cons c l ih =>
    have hc : c ≠ '%' := hl c (List.mem_cons_self c l)
    have hl2 : ∀ d ∈ l, d ≠ '%' := fun d hd => hl d (List.mem_cons_of_mem c hd)
    simp [argScan, hc, ih hl2]

theorem lowestMarker_chr_append (lo : Nat) (l : List Char) (ps : List ArgPart) :
    lowestMarker lo (l.map ArgPart.chr ++ ps) = lowestMarker lo ps := by
  induction l with
  | nil => simp
  | cons c l ih => simp [lowestMarker, ih]

theorem fillParts_chr_append (sub : Nat → Option (List Char)) (l : List Char)
    (ps : List ArgPart) :
    fillParts sub (l.map ArgPart.chr ++ ps) = l ++ fillParts sub ps := by
  induction l with
  | nil => simp
  | cons c l ih => simp [fillParts, ih]

theorem arg_eq_of (s a : String) (ps : List ArgPart) (m : Nat)
    (hps : argScan s.data 0 = ps) (hm : lowestMarker 0 ps = some m) :
    arg s a = String.mk (fillParts (fun n => if n = m then some a.data else none) ps) := by
  simp [arg, hps, hm]

theorem arg2_eq_of (s a1 a2 : String) (ps : List ArgPart) (m1 m2 : Nat)
    (hps : argScan s.data 0 = ps) (h1 : lowestMarker 0 ps = some m1)
    (h2 : lowestMarker (m1 + 1) ps = some m2) :
    arg2 s a1 a2 = String.mk (fillParts
      (fun n => if n = m1 then some a1.data else if n = m2 then some a2.data else none)
      ps) := by
  have hsub : (fun n => if n = m1 then some a1.data
      else if some m2 = some n then some a2.data else none) =
      (fun n => if n = m1 then some a1.data else if n = m2 then some a2.data else none) := by
    funext n
    by_cases h : n = m2
    · simp [h]
    · have h3 : ¬ (some m2 = some n) := fun hh => h (Option.some.inj hh).symm
      simp [h, h3]
  simp only [arg2, hps, h1, h2]
  rw [hsub]

theorem digitChar_ne_percent (d : Nat) (hd : d < 10) : Nat.digitChar d ≠ '%' := by
  interval_cases d <;> decide

theorem toDigitsCore_clean : ∀ (fuel n : Nat) (ds : List Char),
    (∀ c ∈ ds, c ≠ '%') → ∀ c ∈ Nat.toDigitsCore 10 fuel n ds, c ≠ '%' := by
  intro fuel
  induction fuel with
  | zero => intro n ds hds c hc; simp [Nat.toDigitsCore] at hc; exact hds c hc
  | succ fuel ih =>
    intro n ds hds c hc
    simp only [Nat.toDigitsCore] at hc
    have hds2 : ∀ c ∈ Nat.digitChar (n % 10) :: ds, c ≠ '%' := by
      intro c hc
      rcases List.mem_cons.mp hc with h | h
      · rw [h]; exact digitChar_ne_percent _ (Nat.mod_lt n (by decide))
      · exact hds c h
    split at hc
    · exact hds2 c hc
    · exact ih _ _ hds2 c hc

theorem natText_clean (n : Nat) : ∀ c ∈ (toString n).data, c ≠ '%' := by
  intro c hc
  have h : (toString n).data = Nat.toDigits 10 n := rfl
  rw [h] at hc
  exact toDigitsCore_clean _ _ [] (by simp) c hc

theorem intText_clean (a : Int) : ∀ c ∈ (toString a).data, c ≠ '%' := by
  intro c hc
  cases a with
  | ofNat m => exact natText_clean m c hc
  | negSucc m =>
    have h : (toString (Int.negSucc m)).data = '-' :: (toString (m + 1)).data := rfl
    rw [h] at hc
    rcases List.mem_cons.mp hc with h1 | h1
    · rw [h1]; decide
    · exact natText_clean (m + 1) c h1

/-- First step of the header: the code takes the place of `%1`. -/
theorem header_step_code (a : String) :
    arg "HTTP/1.0 %1 %2\r\nContent-Type: %3; charset=utf-8\r\nContent-Length: %4\r\nConnection: close\r\n\r\n" a =
      String.mk ("HTTP/1.0 ".data ++ (a.data ++
        " %2\r\nContent-Type: %3; charset=utf-8\r\nContent-Length: %4\r\nConnection: close\r\n\r\n".data)) := by
  rw [arg_eq_of _ a _ 1 rfl (by decide)]
  rfl

/-- Second step of the header: the status text and the mime take the places of `%2` and
`%3`. -/
theorem header_step_text (x a1 a2 : List Char) (hx : ∀ c ∈ x, c ≠ '%') :
    arg2 (String.mk (x ++
        " %2\r\nContent-Type: %3; charset=utf-8\r\nContent-Length: %4\r\nConnection: close\r\n\r\n".data))
      (String.mk a1) (String.mk a2) =
      String.mk (x ++ (' ' :: (a1 ++ ("\r\nContent-Type: ".data ++ (a2 ++
        ("; charset=utf-8\r\nContent-Length: ".data ++
          "%4\r\nConnection: close\r\n\r\n".data)))))) := by
  rw [arg2_eq_of _ _ _ _ 2 3 (argScan_clean_append x _ hx)
    (by rw [lowestMarker_chr_append]; decide) (by rw [lowestMarker_chr_append]; decide),
    fillParts_chr_append]
  rfl

/-- Third step of the header: the length takes the place of `%4`. -/
theorem header_step_length (x a : List Char) (hx : ∀ c ∈ x, c ≠ '%') :
    arg (String.mk (x ++ "%4\r\nConnection: close\r\n\r\n".data)) (String.mk a) =
      String.mk (x ++ (a ++ "\r\nConnection: close\r\n\r\n".data)) := by
  rw [arg_eq_of _ _ _ 4 (argScan_clean_append x _ hx)
    (by rw [lowestMarker_chr_append]; decide), fillParts_chr_append]
  rfl

theorem clean_append (l1 l2 : List Char) (h1 : ∀ c ∈ l1, c ≠ '%')
    (h2 : ∀ c ∈ l2, c ≠ '%') : ∀ c ∈ l1 ++ l2, c ≠ '%' := by
  intro c hc
  rcases List.mem_append.mp hc with h | h
  · exact h1 c h
  · exact h2 c h

theorem contentType_eq (mimeType : String) :
    contentType mimeType = if mimeType = "" then "text/plain" else mimeType := by
  unfold contentType
  by_cases h : mimeType = ""
  · subst h; rfl
  · have h2 : mimeType.isEmpty = false := by
      cases hb : mimeType.isEmpty with
      | false => rfl
      | true => exact absurd ((String.isEmpty_iff mimeType).mp hb) h
    simp [h, h2]

theorem contentType_clean (mimeType : String) (hm : ∀ c ∈ mimeType.data, c ≠ '%') :
    ∀ c ∈ (contentType mimeType).data, c ≠ '%' := by
  rw [contentType_eq]
  split
  · decide
  · exact hm

/-- The header written for a status text and a mime type without `%`. -/
theorem responseHeader_of_clean (code : Int) (codeString mimeType message : String)
    (hcs : ∀ c ∈ codeString.data, c ≠ '%') (hm : ∀ c ∈ mimeType.data, c ≠ '%') :
    responseHeader code codeString mimeType message =
      "HTTP/1.0 " ++ toString code ++ " " ++ codeString ++ "\r\nContent-Type: " ++
        contentType mimeType ++ "; charset=utf-8\r\nContent-Length: " ++
        toString (toUtf8 message).length ++ "\r\nConnection: close\r\n\r\n" := by
  have hty := contentType_clean mimeType hm
  have hcode := intText_clean code
  have h1 : ∀ c ∈ "HTTP/1.0 ".data ++ (toString code).data, c ≠ '%' :=
    clean_append _ _ (by decide) hcode
  have h2 : ∀ c ∈ ("HTTP/1.0 ".data ++ (toString code).data) ++ (' ' :: (codeString.data ++
      ("\r\nContent-Type: ".data ++ ((contentType mimeType).data ++
        "; charset=utf-8\r\nContent-Length: ".data)))), c ≠ '%' :=
    clean_append _ _ h1 (clean_append [' '] _ (by decide) (clean_append _ _ hcs
      (clean_append _ _ (by decide) (clean_append _ _ hty (by decide)))))
  unfold responseHeader argInt
  rw [header_step_code]
  have e1 : String.mk ("HTTP/1.0 ".data ++ ((toString code).data ++
      " %2\r\nContent-Type: %3; charset=utf-8\r\nContent-Length: %4\r\nConnection: close\r\n\r\n".data)) =
      String.mk (("HTTP/1.0 ".data ++ (toString code).data) ++
      " %2\r\nContent-Type: %3; charset=utf-8\r\nContent-Length: %4\r\nConnection: close\r\n\r\n".data) := by
    rw [List.append_assoc]
  rw [e1]
  have e2 := header_step_text ("HTTP/1.0 ".data ++ (toString code).data) codeString.data
    (contentType mimeType).data h1
  rw [e2]
  have e3 : String.mk ("HTTP/1.0 ".data ++ (toString code).data ++ (' ' :: (codeString.data ++
      ("\r\nContent-Type: ".data ++ ((contentType mimeType).data ++
        ("; charset=utf-8\r\nContent-Length: ".data ++
          "%4\r\nConnection: close\r\n\r\n".data)))))) =
      String.mk ((("HTTP/1.0 ".data ++ (toString code).data) ++ (' ' :: (codeString.data ++
      ("\r\nContent-Type: ".data ++ ((contentType mimeType).data ++
        "; charset=utf-8\r\nContent-Length: ".data))))) ++
          "%4\r\nConnection: close\r\n\r\n".data) := by
    simp only [List.append_assoc, List.cons_append]
  rw [e3]
  have e4 := header_step_length _ (toString ((toUtf8 message).length : Int)).data h2
  rw [e4]
  apply String.ext
  simp only [String.data_append, List.append_assoc, List.cons_append]
  rfl

/-! ## C1: reading a registered probe -/

/-- C1, counterexample: the probe `voltage` is registered and its read yields a value, the
gate is free, and yet the request line `GET /voltage` is answered 400 Bad Request, not
200: a path with one segment is rejected before any probe is looked up. -/
theorem C1_single_segment_is_rejected :
    (exampleRegistry.find "voltage").map (fun probe => (probe.read []).1) =
        some (some (QVariant.pointF ⟨"3"⟩ ⟨"4"⟩)) ∧
      FTestingServerThread.run asciiDecode (fun _ => true) exampleRegistry true
        "GET /voltage" [] = ([Event.writeResponse 400 "Bad Request" "" ""], []) := by
  constructor
  · rfl
  · decide

/-- C1, amended: for every request line `GET /<name>/read` (followed by nothing or by a
space, CR or LF and any text), where `<name>` is a path segment (not empty, without `/`,
space, CR, LF) whose percent-decoding is the name of a registered probe whose read
yields the value `v`, and with the gate acquired, `run` writes one response, 200 OK,
whose body is the text of `v`; for a value that is not a point that text is
`QVariant::toString`. -/
theorem C1_read_of_registered_probe {σ : Type} (dec : String → String)
    (tryLock : Nat → Bool) (fTesting : FTesting σ) (name tail : String) (probe : FProbe σ)
    (v : QVariant) (s s1 : σ)
    (hne : name.data ≠ [])
    (hname : ∀ c ∈ name.data, line_end c = false ∧ slash c = false)
    (htail : ∀ c, tail.data.head? = some c → line_end c = true)
    (hreg : fTesting.find (dec name) = some probe)
    (hread : probe.read s = (some v, s1))
    (hgate : ∃ j, j < attempts ∧ tryLock j = true) :
    responses (FTestingServerThread.run dec tryLock fTesting true
        ("GET /" ++ name ++ "/read" ++ tail) s).1 =
      [Event.writeResponse 200 "OK" (resultMimeType (resultText v)) (resultText v)] ∧
    (v.isPointF = false → resultText v = v.toString) := by
  obtain ⟨htok, hseg⟩ := split_read_line name tail hne hname htail
  constructor
  · rw [run_read_branch dec tryLock fTesting _ _ name "read" _ [] s htok hseg (by decide),
      locked_of_gate tryLock fTesting _ _ _ s hgate,
      dispatch_read_value fTesting _ _ _ probe v s s1 (by decide) hreg hread]
    simp only [responses, List.filter_append]
    have h := responses_lockLoop tryLock attempts 0
    simp only [responses] at h
    rw [h]
    rfl
  · intro hv
    simp [resultText, hv]

/-- C1, witness: `GET /voltage/read HTTP/1.1` on the example registry. -/
theorem C1_read_of_registered_probe_witness :
    responses (FTestingServerThread.run asciiDecode (fun _ => true) exampleRegistry true
        ("GET /" ++ "voltage" ++ "/read" ++ " HTTP/1.1\r\n") []).1 =
      [Event.writeResponse 200 "OK"
        (resultMimeType (resultText (QVariant.pointF ⟨"3"⟩ ⟨"4"⟩)))
        (resultText (QVariant.pointF ⟨"3"⟩ ⟨"4"⟩))] ∧
    ((QVariant.pointF ⟨"3"⟩ ⟨"4"⟩).isPointF = false →
      resultText (QVariant.pointF ⟨"3"⟩ ⟨"4"⟩) = (QVariant.pointF ⟨"3"⟩ ⟨"4"⟩).toString) :=
  C1_read_of_registered_probe asciiDecode (fun _ => true) exampleRegistry "voltage"
    " HTTP/1.1\r\n" voltageProbe (QVariant.pointF ⟨"3"⟩ ⟨"4"⟩) [] []
    (by decide) (by decide) (by decide) rfl rfl ⟨0, by decide, rfl⟩

/-! ## C2: writing to a name that is not registered -/

/-- C2, evaluation at the failing input: no probe is registered under `unknown`; the read
request `GET /unknown/read` is answered 404 Not Found, but the write request
`GET /unknown/write/5` is answered 200 OK with an empty body, and no probe is called. -/
theorem C2_write_to_unregistered_probe_answers_200 :
    exampleRegistry.find "unknown" = none ∧
      FTestingServerThread.run asciiDecode (fun _ => true) exampleRegistry true
        "GET /unknown/read HTTP/1.1\r\n" [] =
        ([Event.tryLock true,
          Event.writeResponse 404 "Not Found" "text/plain" "Probe not found",
          Event.unlock], []) ∧
      FTestingServerThread.run asciiDecode (fun _ => true) exampleRegistry true
        "GET /unknown/write/5 HTTP/1.1\r\n" [] =
        ([Event.tryLock true, Event.writeResponse 200 "OK" "text/plain" "", Event.unlock],
          []) := by
  refine ⟨rfl, ?_, ?_⟩ <;> decide

/-! ## C3: writing a registered probe -/

/-- C3: for every request line `GET /<name>/write/<value>` (followed by nothing or by a
space, CR or LF and any text), where `<name>` and `<value>` are path segments and the
percent-decoding of `<name>` is the name of a registered probe, and with the gate
acquired: the only probe call of `run` is one write of that probe, with the
percent-decoded `<value>` as a string value; the state left is the one that write
leaves; the one response is 200 OK with mime `text/plain` and an empty body, and the
bytes written for it carry `Content-Length: 0` and nothing after the header. -/
theorem C3_write_of_registered_probe {σ : Type} (dec : String → String)
    (tryLock : Nat → Bool) (fTesting : FTesting σ) (name value tail : String)
    (probe : FProbe σ) (s : σ)
    (hne : name.data ≠ []) (hvne : value.data ≠ [])
    (hname : ∀ c ∈ name.data, line_end c = false ∧ slash c = false)
    (hvalue : ∀ c ∈ value.data, line_end c = false ∧ slash c = false)
    (htail : ∀ c, tail.data.head? = some c → line_end c = true)
    (hreg : fTesting.find (dec name) = some probe)
    (hgate : ∃ j, j < attempts ∧ tryLock j = true) :
    probeCalls (FTestingServerThread.run dec tryLock fTesting true
        ("GET /" ++ name ++ "/write/" ++ value ++ tail) s).1 =
      [Event.write (dec name) (QVariant.string (dec value))] ∧
    (FTestingServerThread.run dec tryLock fTesting true
        ("GET /" ++ name ++ "/write/" ++ value ++ tail) s).2 =
      probe.write (QVariant.string (dec value)) s ∧
    responses (FTestingServerThread.run dec tryLock fTesting true
        ("GET /" ++ name ++ "/write/" ++ value ++ tail) s).1 =
      [Event.writeResponse 200 "OK" "text/plain" ""] ∧
    FTestingServerThread.writeResponse 200 "OK" "text/plain" "" =
      toUtf8 "HTTP/1.0 200 OK\r\nContent-Type: text/plain; charset=utf-8\r\nContent-Length: 0\r\nConnection: close\r\n\r\n" := by
  obtain ⟨htok, hseg⟩ := split_write_line name value tail hne hvne hname hvalue htail
  rw [run_write_branch dec tryLock fTesting _ _ name value _ [] s htok hseg,
    locked_of_gate tryLock fTesting _ _ _ s hgate,
    dispatch_write_found fTesting _ _ probe s hreg]
  refine ⟨?_, rfl, ?_, by decide⟩
  · simp only [probeCalls, List.filter_append]
    have h := probeCalls_lockLoop tryLock attempts 0
    simp only [probeCalls] at h
    rw [h]
    rfl
  · simp only [responses, List.filter_append]
    have h := responses_lockLoop tryLock attempts 0
    simp only [responses] at h
    rw [h]
    rfl

/-- C3, witness: `GET /voltage/write/12%2E5 HTTP/1.1` on the example registry, with the gate
acquired at the third attempt. -/
theorem C3_write_of_registered_probe_witness :
    probeCalls (FTestingServerThread.run asciiDecode (fun j => decide (j = 2))
        exampleRegistry true ("GET /" ++ "voltage" ++ "/write/" ++ "12%2E5" ++ " HTTP/1.1\r\n")
        []).1 =
      [Event.write (asciiDecode "voltage") (QVariant.string (asciiDecode "12%2E5"))] ∧
    (FTestingServerThread.run asciiDecode (fun j => decide (j = 2))
        exampleRegistry true ("GET /" ++ "voltage" ++ "/write/" ++ "12%2E5" ++ " HTTP/1.1\r\n")
        []).2 =
      voltageProbe.write (QVariant.string (asciiDecode "12%2E5")) [] ∧
    responses (FTestingServerThread.run asciiDecode (fun j => decide (j = 2))
        exampleRegistry true ("GET /" ++ "voltage" ++ "/write/" ++ "12%2E5" ++ " HTTP/1.1\r\n")
        []).1 =
      [Event.writeResponse 200 "OK" "text/plain" ""] ∧
    FTestingServerThread.writeResponse 200 "OK" "text/plain" "" =
      toUtf8 "HTTP/1.0 200 OK\r\nContent-Type: text/plain; charset=utf-8\r\nContent-Length: 0\r\nConnection: close\r\n\r\n" :=
  C3_write_of_registered_probe asciiDecode (fun j => decide (j = 2)) exampleRegistry
    "voltage" "12%2E5" " HTTP/1.1\r\n" voltageProbe []
    (by decide) (by decide) (by decide) (by decide) (by decide) rfl ⟨2, by decide, rfl⟩

/-! ## C4 to C6: rejected request lines -/

/-- C4: for every header whose first token (split at runs of space, CR and LF) exists and
is not exactly `GET`, whatever the other tokens are, the whole run is the one response
405 Method Not Allowed: no `tryLock` is made, no probe is called, and the application
state is untouched. -/
theorem C4_other_verb_is_405 {σ : Type} (dec : String → String) (tryLock : Nat → Bool)
    (fTesting : FTesting σ) (header verb : String) (rest : List String) (s : σ)
    (htok : split line_end header = verb :: rest) (hverb : verb ≠ "GET") :
    FTestingServerThread.run dec tryLock fTesting true header s =
      ([Event.writeResponse 405 "Method Not Allowed" "" ""], s) := by
  simp [FTestingServerThread.run, htok, hverb]

/-- C4, witness: the lower-case verb of `get /voltage/read` is not `GET`. -/
theorem C4_other_verb_is_405_witness :
    FTestingServerThread.run asciiDecode (fun _ => true) exampleRegistry true
        "get /voltage/read HTTP/1.1\r\n" [] =
      ([Event.writeResponse 405 "Method Not Allowed" "" ""], []) :=
  C4_other_verb_is_405 asciiDecode (fun _ => true) exampleRegistry
    "get /voltage/read HTTP/1.1\r\n" "get" ["/voltage/read", "HTTP/1.1"] []
    (by decide) (by decide)

/-- C5: for every header whose first token is `GET` and whose second token, the path, is
missing or has fewer than two segments (split at `/`, empty segments dropped), the whole
run is the one response 400 Bad Request: no probe is called and the application state
is untouched. -/
theorem C5_short_path_is_400 {σ : Type} (dec : String → String) (tryLock : Nat → Bool)
    (fTesting : FTesting σ) (header : String) (rest : List String) (s : σ)
    (htok : split line_end header = "GET" :: rest)
    (hpath : ∀ path, rest.head? = some path → (split slash path).length < 2) :
    FTestingServerThread.run dec tryLock fTesting true header s =
      ([Event.writeResponse 400 "Bad Request" "" ""], s) := by
  cases rest with
  | nil => simp [FTestingServerThread.run, htok]
  | cons path rest =>
    have hlen := hpath path rfl
    match hseg : split slash path with
    | [] => simp [FTestingServerThread.run, htok, hseg]
    | [first] => simp [FTestingServerThread.run, htok, hseg]
    | first :: second :: more =>
      rw [hseg] at hlen
      simp only [List.length_cons] at hlen
      omega

/-- C5, witness: the path of `GET //voltage/` has the one segment `voltage`. -/
theorem C5_short_path_is_400_witness :
    FTestingServerThread.run asciiDecode (fun _ => true) exampleRegistry true
        "GET //voltage/ HTTP/1.1\r\n" [] =
      ([Event.writeResponse 400 "Bad Request" "" ""], []) :=
  C5_short_path_is_400 asciiDecode (fun _ => true) exampleRegistry
    "GET //voltage/ HTTP/1.1\r\n" ["//voltage/", "HTTP/1.1"] [] (by decide) (by decide)

/-- C6: for every header whose first token is `GET` and whose path has exactly the two
segments `<first>` and `write`, the whole run is the one response 400 Bad Request: no
probe is written (nor read), registered or not, and the application state is
untouched. -/
theorem C6_write_without_value_is_400 {σ : Type} (dec : String → String)
    (tryLock : Nat → Bool) (fTesting : FTesting σ) (header path first : String)
    (rest : List String) (s : σ)
    (htok : split line_end header = "GET" :: path :: rest)
    (hseg : split slash path = [first, "write"]) :
    FTestingServerThread.run dec tryLock fTesting true header s =
      ([Event.writeResponse 400 "Bad Request" "" ""], s) := by
  simp [FTestingServerThread.run, htok, hseg]

/-- C6, witness: `GET /voltage/write/` names the registered probe `voltage` and gives no
value. -/
theorem C6_write_without_value_is_400_witness :
    FTestingServerThread.run asciiDecode (fun _ => true) exampleRegistry true
        "GET /voltage/write/ HTTP/1.1\r\n" [] =
      ([Event.writeResponse 400 "Bad Request" "" ""], []) :=
  C6_write_without_value_is_400 asciiDecode (fun _ => true) exampleRegistry
    "GET /voltage/write/ HTTP/1.1\r\n" "/voltage/write/" "voltage" ["HTTP/1.1"] []
    (by decide) (by decide)

/-! ## C7: any second segment other than `write` reads -/

/-- C7: for every header whose first token is `GET` and whose path has the segments
`<first>`, `<second>` and possibly more, with `<second>` any text other than `write`
(the text as written in the path, not percent-decoded), the run (events and state left)
is the run on the request line `GET /<first>/read` with the same registry, state and
gate, and it contains no probe write. -/
theorem C7_other_second_segment_reads {σ : Type} (dec : String → String)
    (tryLock : Nat → Bool) (fTesting : FTesting σ) (header path first second tail : String)
    (rest more : List String) (s : σ)
    (htok : split line_end header = "GET" :: path :: rest)
    (hseg : split slash path = first :: second :: more)
    (hsecond : second ≠ "write")
    (htail : ∀ c, tail.data.head? = some c → line_end c = true) :
    FTestingServerThread.run dec tryLock fTesting true header s =
      FTestingServerThread.run dec tryLock fTesting true
        ("GET /" ++ first ++ "/read" ++ tail) s ∧
    ∀ name v, Event.write name v ∉
      (FTestingServerThread.run dec tryLock fTesting true header s).1 := by
  have hpath : path ∈ split line_end header := by rw [htok]; simp
  have hfirst : first ∈ split slash path := by rw [hseg]; simp
  obtain ⟨hne, hslash⟩ := split_mem slash path first hfirst
  obtain ⟨_, hline⟩ := split_mem line_end header path hpath
  have hclean : ∀ c ∈ first.data, line_end c = false ∧ slash c = false :=
    fun c hc => ⟨(hline c (hslash c hc).1).2, (hslash c hc).2⟩
  obtain ⟨htok2, hseg2⟩ := split_read_line first tail hne hclean htail
  rw [run_read_branch dec tryLock fTesting header path first second rest more s htok hseg
      hsecond,
    run_read_branch dec tryLock fTesting _ _ first "read" _ [] s htok2 hseg2 (by decide)]
  exact ⟨locked_read_congr tryLock fTesting _ second "read" "" "" s hsecond (by decide),
    fun name v => locked_read_no_write tryLock fTesting _ second "" s hsecond name v⟩

/-- C7, witness: in `GET /voltage/%77rite/9/more` the second segment spells `write` only
after percent-decoding, so the request reads `voltage`. -/
theorem C7_other_second_segment_reads_witness :
    FTestingServerThread.run asciiDecode (fun _ => true) exampleRegistry true
        "GET /voltage/%77rite/9/more HTTP/1.1\r\n" [] =
      FTestingServerThread.run asciiDecode (fun _ => true) exampleRegistry true
        ("GET /" ++ "voltage" ++ "/read" ++ "\r\n") [] ∧
    ∀ name v, Event.write name v ∉
      (FTestingServerThread.run asciiDecode (fun _ => true) exampleRegistry true
        "GET /voltage/%77rite/9/more HTTP/1.1\r\n" []).1 :=
  C7_other_second_segment_reads asciiDecode (fun _ => true) exampleRegistry
    "GET /voltage/%77rite/9/more HTTP/1.1\r\n" "/voltage/%77rite/9/more" "voltage" "%77rite"
    "\r\n" ["HTTP/1.1"] ["9", "more"] [] (by decide) (by decide) (by decide) (by decide)

/-! ## C8: the bytes of a response -/

/-- C8, counterexample: for the status text `%4` the bytes written are not those of the
format of the spec. The text is put in the place of `%2` and the later `.arg` of the
length reads its `%4` as a place marker, so the status line written is `HTTP/1.0 200 3`,
not `HTTP/1.0 200 %4`. -/
theorem C8_marker_in_status_text_is_replaced :
    FTestingServerThread.writeResponse 200 "%4" "text/plain" "abc" ≠
        specResponse 200 "%4" "text/plain" "abc" ∧
      FTestingServerThread.writeResponse 200 "%4" "text/plain" "abc" =
        toUtf8 "HTTP/1.0 200 3\r\nContent-Type: text/plain; charset=utf-8\r\nContent-Length: 3\r\nConnection: close\r\n\r\nabc" := by
  constructor <;> decide

/-- C8, amended: for every code and body, and for every status text and mime type that
contain no `%`, `writeResponse` writes exactly the bytes of
`HTTP/1.0 <code> <text>\r\nContent-Type: <mime>; charset=utf-8\r\nContent-Length: <n>\r\n`
`Connection: close\r\n\r\n` followed by the UTF-8 encoding of the body, where `<n>` is the
number of bytes of that encoding and `<mime>` is `text/plain` when the given mime type is
empty. -/
theorem C8_writeResponse_bytes (code : Int) (codeString mimeType message : String)
    (hcs : ∀ c ∈ codeString.data, c ≠ '%') (hm : ∀ c ∈ mimeType.data, c ≠ '%') :
    FTestingServerThread.writeResponse code codeString mimeType message =
      specResponse code codeString mimeType message := by
  unfold FTestingServerThread.writeResponse specResponse
  rw [responseHeader_of_clean code codeString mimeType message hcs hm, contentType_eq]

/-- C8, witness: the body `héllo` has five characters and six bytes, and the response
400 to it, written with an empty mime type, says `Content-Length: 6` and `text/plain`. -/
theorem C8_writeResponse_bytes_witness :
    FTestingServerThread.writeResponse 400 "Bad Request" "" "héllo" =
        specResponse 400 "Bad Request" "" "héllo" ∧
      specResponse 400 "Bad Request" "" "héllo" =
        toUtf8 "HTTP/1.0 400 Bad Request\r\nContent-Type: text/plain; charset=utf-8\r\nContent-Length: 6\r\nConnection: close\r\n\r\nhéllo" ∧
      "héllo".length = 5 :=
  ⟨C8_writeResponse_bytes 400 "Bad Request" "" "héllo" (by decide) (by decide),
    by decide, by decide⟩

/-! ## C9 and C10: the mime type -/

/-- C9, counterexample: the read of the probe `json` gives the text ` {"a":1}`, whose first
character that is not a blank is `{`; the response to `GET /json/read` is 200 OK with
that body and the mime `text/plain`, not `application/json`. -/
theorem C9_blank_before_brace_is_plain :
    FTestingServerThread.run asciiDecode (fun _ => true) exampleRegistry true
        "GET /json/read HTTP/1.1\r\n" [] =
      ([Event.tryLock true, Event.read "json",
        Event.writeResponse 200 "OK" "text/plain" " \x7b\"a\":1\x7d", Event.unlock], []) ∧
    (" \x7b\"a\":1\x7d".data.dropWhile Char.isWhitespace).head? = some '{' := by
  constructor <;> decide

/-- C9, amended: in every run that reads a probe, a response 200 has the mime
`application/json` if and only if the first character of the body is `{` or `[` (no
blank is skipped), and `text/plain` otherwise. -/
theorem C9_read_mime_by_first_character {σ : Type} (dec : String → String)
    (tryLock : Nat → Bool) (fTesting : FTesting σ) (socketOk : Bool) (header : String)
    (s : σ) (name codeString mimeType message : String)
    (hread : Event.read name ∈
      (FTestingServerThread.run dec tryLock fTesting socketOk header s).1)
    (hresp : Event.writeResponse 200 codeString mimeType message ∈
      (FTestingServerThread.run dec tryLock fTesting socketOk header s).1) :
    (mimeType = "application/json" ↔
      (startsWith message '{' = true ∨ startsWith message '[' = true)) ∧
    (mimeType ≠ "application/json" → mimeType = "text/plain") := by
  rcases run_response_mem dec tryLock fTesting socketOk header s 200 codeString mimeType
      message hresp with h | h | h | h | h | ⟨v, -, -, hm, hb⟩
  · exact absurd h.1 (by decide)
  · exact absurd h.1 (by decide)
  · exact absurd h.1 (by decide)
  · exact absurd hread (h.2.2.2.2 name)
  · exact absurd h.1 (by decide)
  · subst hm hb
    by_cases hs : (startsWith (resultText v) '{' || startsWith (resultText v) '[') = true
    · have hs2 := hs
      simp only [Bool.or_eq_true] at hs2
      simp [resultMimeType, hs, hs2]
    · have hs2 := hs
      simp only [Bool.or_eq_true] at hs2
      simp only [resultMimeType, hs]
      simp [hs2]

/-- C9, witness: the run on `GET /list/read` reads the probe `list` and answers the body
`[1,2]` with `application/json`. -/
theorem C9_read_mime_by_first_character_witness :
    Event.read "list" ∈
      (FTestingServerThread.run asciiDecode (fun _ => true) exampleRegistry true
        "GET /list/read HTTP/1.1\r\n" []).1 ∧
    Event.writeResponse 200 "OK" "application/json" "[1,2]" ∈
      (FTestingServerThread.run asciiDecode (fun _ => true) exampleRegistry true
        "GET /list/read HTTP/1.1\r\n" []).1 ∧
    ("application/json" = "application/json" ↔
      (startsWith "[1,2]" '{' = true ∨ startsWith "[1,2]" '[' = true)) ∧
    ("application/json" ≠ "application/json" → "application/json" = "text/plain") :=
  ⟨by decide, by decide,
    C9_read_mime_by_first_character asciiDecode (fun _ => true) exampleRegistry true
      "GET /list/read HTTP/1.1\r\n" [] "list" "OK" "application/json" "[1,2]"
      (by decide) (by decide)⟩

/-- C10: for every response written by any run, the mime of its `Content-Type` line (the
mime given to `writeResponse`, or `text/plain` when that is empty) is `application/json`
when the body begins with `{` or `[`, and `text/plain` when it does not; an empty body
is in the second case. -/
theorem C10_content_type_by_first_character {σ : Type} (dec : String → String)
    (tryLock : Nat → Bool) (fTesting : FTesting σ) (socketOk : Bool) (header : String)
    (s : σ) (code : Int) (codeString mimeType message : String)
    (hresp : Event.writeResponse code codeString mimeType message ∈
      (FTestingServerThread.run dec tryLock fTesting socketOk header s).1) :
    ((startsWith message '{' = true ∨ startsWith message '[' = true) →
      contentType mimeType = "application/json") ∧
    (¬ (startsWith message '{' = true ∨ startsWith message '[' = true) →
      contentType mimeType = "text/plain") ∧
    (message = "" → contentType mimeType = "text/plain") := by
  have hempty : ¬ (startsWith "" '{' = true ∨ startsWith "" '[' = true) := by decide
  have key : (¬ (startsWith message '{' = true ∨ startsWith message '[' = true) →
      contentType mimeType = "text/plain") ∧
      ((startsWith message '{' = true ∨ startsWith message '[' = true) →
      contentType mimeType = "application/json") := by
    rcases run_response_mem dec tryLock fTesting socketOk header s code codeString mimeType
        message hresp with ⟨-, -, hm, hb⟩ | ⟨-, -, hm, hb⟩ | ⟨-, -, hm, hb⟩ | ⟨-, -, hm, hb, -⟩ |
        ⟨-, -, hm, hb⟩ | ⟨v, -, -, hm, hb⟩
    · subst hm hb; exact ⟨fun _ => by decide, fun h => absurd h (by decide)⟩
    · subst hm hb; exact ⟨fun _ => by decide, fun h => absurd h (by decide)⟩
    · subst hm hb; exact ⟨fun _ => by decide, fun h => absurd h (by decide)⟩
    · subst hm hb; exact ⟨fun _ => by decide, fun h => absurd h (by decide)⟩
    · subst hm hb; exact ⟨fun _ => by decide, fun h => absurd h (by decide)⟩
    · subst hm hb
      by_cases hs : (startsWith (resultText v) '{' || startsWith (resultText v) '[') = true
      · have hs2 := hs
        simp only [Bool.or_eq_true] at hs2
        refine ⟨fun h => absurd hs2 h, fun _ => ?_⟩
        simp only [resultMimeType, hs]
        decide
      · have hs2 := hs
        simp only [Bool.or_eq_true] at hs2
        refine ⟨fun _ => ?_, fun h => absurd h hs2⟩
        simp only [resultMimeType, hs]
        decide
  refine ⟨key.2, key.1, fun h => key.1 ?_⟩
  rw [h]
  exact hempty

set_option maxRecDepth 100000 in
/-- C10, witness: the response 503 of a run that never gets the gate is written with an
empty mime type, and its `Content-Type` is `text/plain`. -/
theorem C10_content_type_by_first_character_witness :
    Event.writeResponse 503 "Service Unavailable" "" "Server busy." ∈
      (FTestingServerThread.run asciiDecode (fun _ => false) exampleRegistry true
        "GET /voltage/read HTTP/1.1\r\n" []).1 ∧
    ((startsWith "Server busy." '{' = true ∨ startsWith "Server busy." '[' = true) →
      contentType "" = "application/json") ∧
    (¬ (startsWith "Server busy." '{' = true ∨ startsWith "Server busy." '[' = true) →
      contentType "" = "text/plain") ∧
    ("Server busy." = "" → contentType "" = "text/plain") :=
  ⟨by decide,
    C10_content_type_by_first_character asciiDecode (fun _ => false) exampleRegistry true
      "GET /voltage/read HTTP/1.1\r\n" [] 503 "Service Unavailable" "" "Server busy."
      (by decide)⟩

/-! ## More on the gate loop and the order of a run -/

/-- A loop that got the gate made some failed calls and then the one that succeeded. -/
theorem lockLoop_got_events (tryLock : Nat → Bool) (n : Nat) :
    ∀ i, (lockLoop tryLock n i).1 = true →
      ∃ k, k < n ∧ (lockLoop tryLock n i).2 =
        List.replicate k (Event.tryLock false) ++ [Event.tryLock true] := by
  induction n with
  | zero => intro i h; simp [lockLoop] at h
  | succ n ih =>
    intro i h
    by_cases ht : tryLock i = true
    · exact ⟨0, Nat.succ_pos n, by simp [lockLoop, ht]⟩
    · simp only [lockLoop, ht, if_false, Bool.false_eq_true] at h ⊢
      obtain ⟨k, hk, he⟩ := ih (i + 1) h
      exact ⟨k + 1, Nat.succ_lt_succ hk, by rw [he]; rfl⟩

/-- A loop that did not get the gate made `n` failed calls. -/
theorem lockLoop_fail_events (tryLock : Nat → Bool) (n : Nat) :
    ∀ i, (lockLoop tryLock n i).1 = false →
      (lockLoop tryLock n i).2 = List.replicate n (Event.tryLock false) := by
  induction n with
  | zero => intro i _; simp [lockLoop]
  | succ n ih =>
    intro i h
    by_cases ht : tryLock i = true
    · simp [lockLoop, ht] at h
    · simp only [lockLoop, ht, if_false, Bool.false_eq_true] at h ⊢
      rw [ih (i + 1) h]
      rfl

theorem lockLoop_length_le (tryLock : Nat → Bool) (n : Nat) :
    ∀ i, (lockLoop tryLock n i).2.length ≤ n := by
  induction n with
  | zero => intro i; simp [lockLoop]
  | succ n ih =>
    intro i
    by_cases ht : tryLock i = true
    · simp [lockLoop, ht]
    · simp only [lockLoop, ht, if_false, Bool.false_eq_true, List.length_cons]
      exact Nat.succ_le_succ (ih (i + 1))

theorem lockLoop_busy (tryLock : Nat → Bool) (n : Nat)
    (hbusy : ∀ j, j < n → tryLock j = false) : (lockLoop tryLock n 0).1 = false := by
  cases h : (lockLoop tryLock n 0).1 with
  | false => rfl
  | true =>
    obtain ⟨j, _, hj, ht⟩ := (lockLoop_got tryLock n 0).mp h
    rw [hbusy j (by omega)] at ht
    cases ht

theorem lockAttempts_lockLoop (tryLock : Nat → Bool) (n i : Nat) :
    lockAttempts (lockLoop tryLock n i).2 = (lockLoop tryLock n i).2 := by
  unfold lockAttempts
  rw [List.filter_eq_self]
  intro e he
  rcases lockLoop_events tryLock n i e he with ⟨b, rfl⟩
  rfl

/-- The probe calls and the response of `dispatch`, in order: at most one probe call, then
one response, then the unlock. -/
theorem dispatch_order {σ : Type} (fTesting : FTesting σ)
    (command readOrWrite param : String) (s : σ) :
    ∃ calls code codeString mimeType message,
      (dispatch fTesting command readOrWrite param s).1 =
        calls ++ [Event.writeResponse code codeString mimeType message, Event.unlock] ∧
      calls.length ≤ 1 ∧
      (∀ e ∈ calls, (∃ name, e = Event.read name) ∨ ∃ name v, e = Event.write name v) ∧
      ((code = 200 ∧ codeString = "OK") ∨ (code = 404 ∧ codeString = "Not Found")) := by
  by_cases hrw : readOrWrite = "write"
  · cases hfind : fTesting.find command with
    | none =>
      exact ⟨[], 200, "OK", "text/plain", "",
        by simp [dispatch, FTesting.writeProbe, hfind, hrw], by simp, by simp,
        Or.inl ⟨rfl, rfl⟩⟩
    | some probe =>
      exact ⟨[Event.write command (QVariant.string param)], 200, "OK", "text/plain", "",
        by simp [dispatch, FTesting.writeProbe, hfind, hrw], by simp, by simp,
        Or.inl ⟨rfl, rfl⟩⟩
  · cases hfind : fTesting.find command with
    | none =>
      exact ⟨[], 404, "Not Found", "text/plain", "Probe not found",
        by simp [dispatch, FTesting.readProbe, hfind, hrw], by simp, by simp,
        Or.inr ⟨rfl, rfl⟩⟩
    | some probe =>
      cases hread : (probe.read s).1 with
      | none =>
        exact ⟨[Event.read command], 404, "Not Found", "text/plain", "Probe not found",
          by simp [dispatch, FTesting.readProbe, hfind, hrw, hread], by simp, by simp,
          Or.inr ⟨rfl, rfl⟩⟩
      | some v =>
        exact ⟨[Event.read command], 200, "OK", resultMimeType (resultText v), resultText v,
          by simp [dispatch, FTesting.readProbe, hfind, hrw, hread], by simp, by simp,
          Or.inl ⟨rfl, rfl⟩⟩

/-- The events of a run whose socket descriptor was set: a rejection of the request line,
or what `locked` does. -/
theorem run_ok_events {σ : Type} (dec : String → String) (tryLock : Nat → Bool)
    (fTesting : FTesting σ) (header : String) (s : σ) :
    FTestingServerThread.run dec tryLock fTesting true header s =
      ([Event.writeResponse 400 "Bad Request" "" ""], s) ∨
    FTestingServerThread.run dec tryLock fTesting true header s =
      ([Event.writeResponse 405 "Method Not Allowed" "" ""], s) ∨
    ∃ command readOrWrite param,
      FTestingServerThread.run dec tryLock fTesting true header s =
        locked tryLock fTesting command readOrWrite param s := by
  unfold FTestingServerThread.run
  simp only [Bool.true_eq_false, if_false]
  split
  · exact Or.inl rfl
  · split
    · exact Or.inr (Or.inl rfl)
    · split
      · exact Or.inl rfl
      · split
        · exact Or.inl rfl
        · split
          · exact Or.inl rfl
          · split
            · split
              · exact Or.inl rfl
              · exact Or.inr (Or.inr ⟨_, _, _, rfl⟩)
            · exact Or.inr (Or.inr ⟨_, _, _, rfl⟩)

/-- A request line that passes every check of `run` reaches the gate. -/
theorem run_parsed {σ : Type} (dec : String → String) (tryLock : Nat → Bool)
    (fTesting : FTesting σ) (header path first second : String) (rest more : List String)
    (s : σ) (htok : split line_end header = "GET" :: path :: rest)
    (hseg : split slash path = first :: second :: more)
    (hvalue : second = "write" → more ≠ []) :
    ∃ param, FTestingServerThread.run dec tryLock fTesting true header s =
      locked tryLock fTesting (dec first) second param s := by
  by_cases hrw : second = "write"
  · cases more with
    | nil => exact absurd rfl (hvalue hrw)
    | cons value more =>
      subst hrw
      exact ⟨dec value, run_write_branch dec tryLock fTesting header path first value rest
        more s htok hseg⟩
  · exact ⟨"", run_read_branch dec tryLock fTesting header path first second rest more s
      htok hseg hrw⟩

/-- The events of `locked` when the gate is not got: the failed calls and the 503. -/
theorem locked_busy {σ : Type} (tryLock : Nat → Bool) (fTesting : FTesting σ)
    (command readOrWrite param : String) (s : σ)
    (hbusy : ∀ j, j < attempts → tryLock j = false) :
    locked tryLock fTesting command readOrWrite param s =
      (List.replicate attempts (Event.tryLock false) ++
        [Event.writeResponse 503 "Service Unavailable" "" "Server busy."], s) := by
  have h := lockLoop_busy tryLock attempts hbusy
  simp only [locked, h, if_false, Bool.false_eq_true]
  rw [lockLoop_fail_events tryLock attempts 0 h]

theorem lockAttempts_dispatch {σ : Type} (fTesting : FTesting σ)
    (command readOrWrite param : String) (s : σ) :
    lockAttempts (dispatch fTesting command readOrWrite param s).1 = [] := by
  obtain ⟨calls, code, cs, m, b, heq, -, hcalls, -⟩ :=
    dispatch_order fTesting command readOrWrite param s
  rw [heq]
  unfold lockAttempts
  rw [List.filter_eq_nil_iff]
  intro e he
  rcases List.mem_append.mp he with h | h
  · rcases hcalls e h with ⟨n, rfl⟩ | ⟨n, v, rfl⟩ <;> simp
  · simp at h
    rcases h with rfl | rfl <;> simp

theorem lockAttempts_locked_le {σ : Type} (tryLock : Nat → Bool) (fTesting : FTesting σ)
    (command readOrWrite param : String) (s : σ) :
    (lockAttempts (locked tryLock fTesting command readOrWrite param s).1).length ≤
      attempts := by
  have hlen := lockLoop_length_le tryLock attempts 0
  have hla := lockAttempts_lockLoop tryLock attempts 0
  have hd := lockAttempts_dispatch fTesting command readOrWrite param s
  unfold locked
  split
  · simp only [lockAttempts, List.filter_append] at hla hd ⊢
    rw [hla, hd, List.append_nil]
    exact hlen
  · simp only [lockAttempts, List.filter_append] at hla ⊢
    rw [hla]
    simpa using hlen

theorem lockAttempts_run_le {σ : Type} (dec : String → String) (tryLock : Nat → Bool)
    (fTesting : FTesting σ) (socketOk : Bool) (header : String) (s : σ) :
    (lockAttempts (FTestingServerThread.run dec tryLock fTesting socketOk header s).1).length ≤
      attempts := by
  rcases run_events dec tryLock fTesting socketOk header s with h | h | h | ⟨c, r, p, h⟩
  · rw [h]; simp [lockAttempts]
  · rw [h]; simp [lockAttempts]
  · rw [h]; simp [lockAttempts]
  · rw [h]; exact lockAttempts_locked_le tryLock fTesting c r p s

/-! ## Lemmas on the registry -/

theorem lookup_filter_self {β : Type} (k : String) (l : List (String × β)) :
    List.lookup k (l.filter fun e => e.1 != k) = none := by
  induction l with
  | nil => rfl
  | cons e l ih =>
    obtain ⟨a, b⟩ := e
    rw [List.filter_cons]
    by_cases h : a = k
    · have hp : (a != k) = false := by simpa using h
      simp only [hp, Bool.false_eq_true, if_false]
      exact ih
    · have hp : (a != k) = true := by simpa using h
      have h2 : (k == a) = false := by simpa using fun hk => h hk.symm
      simp only [hp, if_true, List.lookup, h2]
      exact ih

theorem lookup_filter_ne {β : Type} (k n : String) (hn : n ≠ k) (l : List (String × β)) :
    List.lookup n (l.filter fun e => e.1 != k) = List.lookup n l := by
  induction l with
  | nil => rfl
  | cons e l ih =>
    obtain ⟨a, b⟩ := e
    rw [List.filter_cons]
    by_cases h : a = k
    · have hp : (a != k) = false := by simpa using h
      have h2 : (n == a) = false := by rw [h]; simpa using hn
      simp only [hp, Bool.false_eq_true, if_false, List.lookup, h2]
      exact ih
    · have hp : (a != k) = true := by simpa using h
      simp only [hp, if_true]
      by_cases h3 : n = a
      · have h2 : (n == a) = true := by simpa using h3
        simp only [List.lookup, h2]
      · have h2 : (n == a) = false := by simpa using h3
        simp only [List.lookup, h2]
        exact ih

theorem filter_of_lookup_none {β : Type} (k : String) (l : List (String × β))
    (hk : List.lookup k l = none) : (l.filter fun e => e.1 != k) = l := by
  induction l with
  | nil => rfl
  | cons e l ih =>
    obtain ⟨a, b⟩ := e
    rw [List.filter_cons]
    by_cases h : k = a
    · have h2 : (k == a) = true := by simpa using h
      simp only [List.lookup, h2] at hk
      cases hk
    · have h2 : (k == a) = false := by simpa using h
      simp only [List.lookup, h2] at hk
      have hp : (a != k) = true := by simpa using fun hh => h hh.symm
      simp only [hp, if_true]
      rw [ih hk]

theorem find_addProbe_self {σ : Type} (t : FTesting σ) (probe : FProbe σ) :
    (t.addProbe probe).find probe.name = some probe := by
  simp [FTesting.find, FTesting.addProbe, List.lookup]

theorem find_addProbe_ne {σ : Type} (t : FTesting σ) (probe : FProbe σ) (name : String)
    (hne : name ≠ probe.name) : (t.addProbe probe).find name = t.find name := by
  have h2 : (name == probe.name) = false := by simpa using hne
  simp only [FTesting.find, FTesting.addProbe, List.lookup, h2]
  exact lookup_filter_ne probe.name name hne t.m_probeMap

theorem find_removeProbe_self {σ : Type} (t : FTesting σ) (name : String) :
    (t.removeProbe name).find name = none :=
  lookup_filter_self name t.m_probeMap

theorem find_removeProbe_ne {σ : Type} (t : FTesting σ) (name other : String)
    (hne : other ≠ name) : (t.removeProbe name).find other = t.find other :=
  lookup_filter_ne name other hne t.m_probeMap

theorem removeProbe_of_find_none {σ : Type} (t : FTesting σ) (name : String)
    (hfind : t.find name = none) : t.removeProbe name = t := by
  cases t with
  | mk m =>
    simp only [FTesting.removeProbe]
    rw [filter_of_lookup_none name m hfind]

/-! ## Lemmas on the load errors -/

theorem createLoadError_isBlocker (info : FzpInfo) (title message : String)
    (isBlocker : Bool) (line column : Int) :
    (info.createLoadError title message isBlocker line column).isBlocker = isBlocker := by
  unfold FzpInfo.createLoadError
  by_cases hl : line ≥ 0 <;> by_cases hc : column ≥ 0 <;>
    simp [hl, hc, FLoadError.isBlocker, FLoadError.setColumn, FLoadError.setLine,
      FLoadError.setBlocker]

theorem createLoadError_line (info : FzpInfo) (title message : String)
    (isBlocker : Bool) (line column : Int) :
    (info.createLoadError title message isBlocker line column).getLocation.line =
      if line ≥ 0 then line else 0 := by
  unfold FzpInfo.createLoadError
  by_cases hl : line ≥ 0 <;> by_cases hc : column ≥ 0 <;>
    simp [hl, hc, FLoadError.getLocation, FLoadError.setColumn, FLoadError.setLine,
      FLoadError.setBlocker, FLoadError.setDescription, FLoadError.setMessage,
      FLoadError.ofPath]

/-- One call appends one entry, a blocker exactly for an `addError`. -/
theorem call_appends (tr : String → String) (info : FzpInfo) (c : AddCall) :
    ∃ e, (info.call tr c).m_errors = info.m_errors ++ [e] ∧ e.isBlocker = c.isError := by
  cases c with
  | addErrorMessage message =>
    exact ⟨_, rfl, createLoadError_isBlocker info _ _ true _ _⟩
  | addError title message line column =>
    exact ⟨_, rfl, createLoadError_isBlocker info _ _ true _ _⟩
  | addWarningMessage message =>
    exact ⟨_, rfl, createLoadError_isBlocker info _ _ false _ _⟩
  | addWarning title message line column =>
    exact ⟨_, rfl, createLoadError_isBlocker info _ _ false _ _⟩

/-- A sequence of calls appends one entry a call, in the order of the calls. -/
theorem calls_append (tr : String → String) (cs : List AddCall) :
    ∀ info : FzpInfo, ∃ es, (info.calls tr cs).m_errors = info.m_errors ++ es ∧
      es.map FLoadError.isBlocker = cs.map AddCall.isError := by
  induction cs with
  | nil => intro info; exact ⟨[], by simp [FzpInfo.calls], rfl⟩
  | cons c cs ih =>
    intro info
    obtain ⟨e, he, hb⟩ := call_appends tr info c
    obtain ⟨es, hes, hbs⟩ := ih (info.call tr c)
    refine ⟨e :: es, ?_, ?_⟩
    · have : info.calls tr (c :: cs) = (info.call tr c).calls tr cs := rfl
      rw [this, hes, he]
      simp
    · simp [hb, hbs]

/-! ## C11: the gate and the response -/

/-- C11, counterexample: in the run on `GET /voltage/read` the response is written before
the gate is unlocked, so it is written while the gate is held. -/
theorem C11_response_is_written_before_unlock :
    (FTestingServerThread.run asciiDecode (fun _ => true) exampleRegistry true
        "GET /voltage/read HTTP/1.1\r\n" []).1 =
      [Event.tryLock true, Event.read "voltage",
        Event.writeResponse 200 "OK" "text/plain" "3 4", Event.unlock] ∧
    List.indexOf (Event.writeResponse 200 "OK" "text/plain" "3 4")
        (FTestingServerThread.run asciiDecode (fun _ => true) exampleRegistry true
          "GET /voltage/read HTTP/1.1\r\n" []).1 <
      List.indexOf Event.unlock
        (FTestingServerThread.run asciiDecode (fun _ => true) exampleRegistry true
          "GET /voltage/read HTTP/1.1\r\n" []).1 := by
  constructor <;> decide

/-- C11, amended: on every run that acquires the gate, the events are, in this order: the
failed calls of `tryLock`, the call that acquires the gate, at most one probe read or
write, one response, and the unlock as the last event. The gate is unlocked after the
probe operation and after the response is written; the response is written while the
gate is held. -/
theorem C11_unlock_follows_the_response {σ : Type} (dec : String → String)
    (tryLock : Nat → Bool) (fTesting : FTesting σ) (socketOk : Bool) (header : String)
    (s : σ)
    (hgate : Event.tryLock true ∈
      (FTestingServerThread.run dec tryLock fTesting socketOk header s).1) :
    ∃ k calls code codeString mimeType message,
      (FTestingServerThread.run dec tryLock fTesting socketOk header s).1 =
        List.replicate k (Event.tryLock false) ++ [Event.tryLock true] ++ calls ++
          [Event.writeResponse code codeString mimeType message, Event.unlock] ∧
      calls.length ≤ 1 ∧
      ∀ e ∈ calls, (∃ name, e = Event.read name) ∨ ∃ name v, e = Event.write name v := by
  rcases run_events dec tryLock fTesting socketOk header s with h | h | h | ⟨c, r, p, h⟩
  · rw [h] at hgate; simp at hgate
  · rw [h] at hgate; simp at hgate
  · rw [h] at hgate; simp at hgate
  · rw [h] at hgate ⊢
    cases hgot : (lockLoop tryLock attempts 0).1 with
    | false =>
      simp only [locked, hgot, if_false, Bool.false_eq_true] at hgate
      rw [lockLoop_fail_events tryLock attempts 0 hgot] at hgate
      rcases List.mem_append.mp hgate with h1 | h1
      · have := (List.mem_replicate.mp h1).2
        cases this
      · simp at h1
    | true =>
      obtain ⟨k, -, hk⟩ := lockLoop_got_events tryLock attempts 0 hgot
      obtain ⟨calls, code, cs, m, b, heq, hlen, hcalls, -⟩ := dispatch_order fTesting c r p s
      refine ⟨k, calls, code, cs, m, b, ?_, hlen, hcalls⟩
      simp only [locked, hgot, if_true]
      rw [hk, heq]
      simp only [List.append_assoc]

/-- C11, witness: the write `GET /voltage/write/5` with the gate acquired at the third
call. -/
theorem C11_unlock_follows_the_response_witness :
    Event.tryLock true ∈
      (FTestingServerThread.run asciiDecode (fun j => decide (j = 2)) exampleRegistry true
        "GET /voltage/write/5 HTTP/1.1\r\n" []).1 ∧
    ∃ k calls code codeString mimeType message,
      (FTestingServerThread.run asciiDecode (fun j => decide (j = 2)) exampleRegistry true
        "GET /voltage/write/5 HTTP/1.1\r\n" []).1 =
        List.replicate k (Event.tryLock false) ++ [Event.tryLock true] ++ calls ++
          [Event.writeResponse code codeString mimeType message, Event.unlock] ∧
      calls.length ≤ 1 ∧
      ∀ e ∈ calls, (∃ name, e = Event.read name) ∨ ∃ name v, e = Event.write name v :=
  ⟨by decide,
    C11_unlock_follows_the_response asciiDecode (fun j => decide (j = 2)) exampleRegistry
      true "GET /voltage/write/5 HTTP/1.1\r\n" [] (by decide)⟩

/-! ## C12: the gate is never free -/

/-- C12: for every request line that passes the checks of `run` (first token `GET`, a path
with the segments `<first>`, `<second>` and, when `<second>` is `write`, a third one), if
none of the `attempts` = 1200 calls of `tryLock` acquires the gate, the run is exactly
1200 failed calls followed by the response 503 Service Unavailable: no probe is read or
written, nothing is unlocked and the state is untouched. And no run at all, whatever
the gate and the header, makes more than 1200 calls of `tryLock`. -/
theorem C12_busy_gate_is_503 {σ : Type} (dec : String → String) (tryLock : Nat → Bool)
    (fTesting : FTesting σ) (header path first second : String) (rest more : List String)
    (s : σ)
    (htok : split line_end header = "GET" :: path :: rest)
    (hseg : split slash path = first :: second :: more)
    (hvalue : second = "write" → more ≠ [])
    (hbusy : ∀ j, j < 1200 → tryLock j = false) :
    FTestingServerThread.run dec tryLock fTesting true header s =
      (List.replicate 1200 (Event.tryLock false) ++
        [Event.writeResponse 503 "Service Unavailable" "" "Server busy."], s) ∧
    ∀ (anyLock : Nat → Bool) (socketOk : Bool) (anyHeader : String),
      (lockAttempts
        (FTestingServerThread.run dec anyLock fTesting socketOk anyHeader s).1).length ≤
        1200 := by
  have hatt : attempts = 1200 := by decide
  constructor
  · obtain ⟨param, hrun⟩ := run_parsed dec tryLock fTesting header path first second rest
      more s htok hseg hvalue
    rw [hrun, locked_busy tryLock fTesting _ _ _ s (by rw [hatt]; exact hbusy), hatt]
  · intro anyLock socketOk anyHeader
    have h := lockAttempts_run_le dec anyLock fTesting socketOk anyHeader s
    rw [hatt] at h
    exact h

/-- C12, witness: `GET /voltage/read` with a gate that is never free. -/
theorem C12_busy_gate_is_503_witness :
    FTestingServerThread.run asciiDecode (fun _ => false) exampleRegistry true
        "GET /voltage/read HTTP/1.1\r\n" [] =
      (List.replicate 1200 (Event.tryLock false) ++
        [Event.writeResponse 503 "Service Unavailable" "" "Server busy."], []) ∧
    ∀ (anyLock : Nat → Bool) (socketOk : Bool) (anyHeader : String),
      (lockAttempts
        (FTestingServerThread.run asciiDecode anyLock exampleRegistry socketOk anyHeader
          []).1).length ≤ 1200 :=
  C12_busy_gate_is_503 asciiDecode (fun _ => false) exampleRegistry
    "GET /voltage/read HTTP/1.1\r\n" "/voltage/read" "voltage" "read" ["HTTP/1.1"] [] []
    (by decide) (by decide) (by decide) (fun _ _ => rfl)

/-! ## C13 and C14: the registry -/

/-- C13: for every registry and probe `p`, after `addProbe(p)` the name `p.name()` finds
`p`, whatever was registered under that name before, and `readProbe` and `writeProbe` of
that name call `p`; under every other name the registry finds, reads and writes what it
did before. -/
theorem C13_addProbe_last_registration_wins {σ : Type} (t : FTesting σ) (probe : FProbe σ)
    (name : String) (param : QVariant) (s : σ) (hne : name ≠ probe.name) :
    (t.addProbe probe).find probe.name = some probe ∧
    (t.addProbe probe).readProbe probe.name s =
      ((probe.read s).1, [Event.read probe.name], (probe.read s).2) ∧
    (t.addProbe probe).writeProbe probe.name param s =
      ([Event.write probe.name param], probe.write param s) ∧
    (t.addProbe probe).find name = t.find name ∧
    (t.addProbe probe).readProbe name s = t.readProbe name s ∧
    (t.addProbe probe).writeProbe name param s = t.writeProbe name param s := by
  have h1 := find_addProbe_self t probe
  have h2 := find_addProbe_ne t probe name hne
  refine ⟨h1, ?_, ?_, h2, ?_, ?_⟩
  · simp [FTesting.readProbe, h1]
  · simp [FTesting.writeProbe, h1]
  · simp [FTesting.readProbe, h2]
  · simp [FTesting.writeProbe, h2]

/-- C13, witness: a second probe named `voltage`, reading 5, is added to the example
registry, which has a probe `voltage` already; the name `list` is another name. -/
theorem C13_addProbe_last_registration_wins_witness :
    (exampleRegistry.find "voltage").map (fun probe => (probe.read []).1) =
      some (some (QVariant.pointF ⟨"3"⟩ ⟨"4"⟩)) ∧
    ((exampleRegistry.addProbe (exampleProbe "voltage" (some (QVariant.int 5)))).find
        (exampleProbe "voltage" (some (QVariant.int 5))).name =
      some (exampleProbe "voltage" (some (QVariant.int 5))) ∧
    (exampleRegistry.addProbe (exampleProbe "voltage" (some (QVariant.int 5)))).readProbe
        (exampleProbe "voltage" (some (QVariant.int 5))).name [] =
      (((exampleProbe "voltage" (some (QVariant.int 5))).read []).1,
        [Event.read (exampleProbe "voltage" (some (QVariant.int 5))).name],
        ((exampleProbe "voltage" (some (QVariant.int 5))).read []).2) ∧
    (exampleRegistry.addProbe (exampleProbe "voltage" (some (QVariant.int 5)))).writeProbe
        (exampleProbe "voltage" (some (QVariant.int 5))).name (QVariant.string "7") [] =
      ([Event.write (exampleProbe "voltage" (some (QVariant.int 5))).name
          (QVariant.string "7")],
        (exampleProbe "voltage" (some (QVariant.int 5))).write (QVariant.string "7") []) ∧
    (exampleRegistry.addProbe (exampleProbe "voltage" (some (QVariant.int 5)))).find "list" =
      exampleRegistry.find "list" ∧
    (exampleRegistry.addProbe (exampleProbe "voltage" (some (QVariant.int 5)))).readProbe
        "list" [] = exampleRegistry.readProbe "list" [] ∧
    (exampleRegistry.addProbe (exampleProbe "voltage" (some (QVariant.int 5)))).writeProbe
        "list" (QVariant.string "7") [] =
      exampleRegistry.writeProbe "list" (QVariant.string "7") []) :=
  ⟨rfl, C13_addProbe_last_registration_wins exampleRegistry
    (exampleProbe "voltage" (some (QVariant.int 5))) "list" (QVariant.string "7") []
    (by decide)⟩

/-- C14: for every registry and name `n`, after `removeProbe(n)` the name finds nothing,
`readProbe(n)` returns no value and calls no probe, `writeProbe(n, v)` calls no probe and
leaves the state alone; under every other name the registry finds what it did before;
and when `n` was not registered the registry is the one it was. -/
theorem C14_removeProbe_unregisters {σ : Type} (t : FTesting σ) (name other : String)
    (param : QVariant) (s : σ) (hne : other ≠ name) :
    (t.removeProbe name).find name = none ∧
    (t.removeProbe name).readProbe name s = (none, [], s) ∧
    (t.removeProbe name).writeProbe name param s = ([], s) ∧
    (t.removeProbe name).find other = t.find other ∧
    (t.find name = none → t.removeProbe name = t) := by
  have h1 := find_removeProbe_self t name
  refine ⟨h1, ?_, ?_, find_removeProbe_ne t name other hne, removeProbe_of_find_none t name⟩
  · simp [FTesting.readProbe, h1]
  · simp [FTesting.writeProbe, h1]

/-- C14, witness: `voltage` is removed from the example registry; `list` is another
name. -/
theorem C14_removeProbe_unregisters_witness :
    (exampleRegistry.find "voltage").isSome = true ∧
    ((exampleRegistry.removeProbe "voltage").find "voltage" = none ∧
    (exampleRegistry.removeProbe "voltage").readProbe "voltage" [] = (none, [], []) ∧
    (exampleRegistry.removeProbe "voltage").writeProbe "voltage" (QVariant.string "7") [] =
      ([], []) ∧
    (exampleRegistry.removeProbe "voltage").find "list" = exampleRegistry.find "list" ∧
    (exampleRegistry.find "voltage" = none →
      exampleRegistry.removeProbe "voltage" = exampleRegistry)) :=
  ⟨rfl, C14_removeProbe_unregisters exampleRegistry "voltage" "list" (QVariant.string "7") []
    (by decide)⟩

/-! ## C16: errors block, warnings do not -/

/-- C16: for every sequence of calls of the overloads of `addError` and `addWarning`, with
any arguments, the calls append to `m_errors` one entry a call, in the order of the calls,
with `isBlocker()` true for an `addError` and false for an `addWarning`. On an `FzpInfo`
that starts without entries, `hasBlockingErrors()` is true if and only if one of the calls
is an `addError`, and `hasAnyErrors()` is true if and only if there is a call. -/
theorem C16_errors_block_warnings_do_not (tr : String → String) (info : FzpInfo)
    (cs : List AddCall) (path : String) :
    (∃ es, (info.calls tr cs).m_errors = info.m_errors ++ es ∧
      es.map FLoadError.isBlocker = cs.map AddCall.isError) ∧
    (((FzpInfo.ofPath path).calls tr cs).hasBlockingErrors = true ↔
      ∃ c ∈ cs, c.isError = true) ∧
    (((FzpInfo.ofPath path).calls tr cs).hasAnyErrors = true ↔ cs ≠ []) := by
  refine ⟨calls_append tr cs info, ?_, ?_⟩
  · obtain ⟨es, hes, hmap⟩ := calls_append tr cs (FzpInfo.ofPath path)
    have hnil : (FzpInfo.ofPath path).m_errors = [] := rfl
    rw [hnil, List.nil_append] at hes
    unfold FzpInfo.hasBlockingErrors
    rw [hes, List.any_eq_true]
    constructor
    · rintro ⟨e, he, hb⟩
      have hm : e.isBlocker ∈ cs.map AddCall.isError := by
        rw [← hmap]; exact List.mem_map_of_mem _ he
      obtain ⟨c, hc, hce⟩ := List.mem_map.mp hm
      exact ⟨c, hc, by rw [hce]; exact hb⟩
    · rintro ⟨c, hc, hb⟩
      have hm : c.isError ∈ es.map FLoadError.isBlocker := by
        rw [hmap]; exact List.mem_map_of_mem _ hc
      obtain ⟨e, he, hee⟩ := List.mem_map.mp hm
      exact ⟨e, he, by rw [hee]; exact hb⟩
  · obtain ⟨es, hes, hmap⟩ := calls_append tr cs (FzpInfo.ofPath path)
    have hnil : (FzpInfo.ofPath path).m_errors = [] := rfl
    rw [hnil, List.nil_append] at hes
    have hlen : es.length = cs.length := by
      have := congrArg List.length hmap
      simpa using this
    unfold FzpInfo.hasAnyErrors
    rw [hes]
    cases es with
    | nil =>
      cases cs with
      | nil => simp
      | cons c cs => simp at hlen
    | cons e es =>
      cases cs with
      | nil => simp at hlen
      | cons c cs => simp

/-! ## C17: one response a run -/

/-- C17: every run whose socket descriptor was set writes exactly one response, whichever
branch is taken; its code and status text are one of 200 OK, 400 Bad Request,
404 Not Found, 405 Method Not Allowed and 503 Service Unavailable, and the bytes written
for it are those of the response format, with the status line `HTTP/1.0 <code> <text>`. -/
theorem C17_exactly_one_response {σ : Type} (dec : String → String) (tryLock : Nat → Bool)
    (fTesting : FTesting σ) (header : String) (s : σ) :
    ∃ code codeString mimeType message,
      responses (FTestingServerThread.run dec tryLock fTesting true header s).1 =
        [Event.writeResponse code codeString mimeType message] ∧
      ((code = 200 ∧ codeString = "OK") ∨ (code = 400 ∧ codeString = "Bad Request") ∨
        (code = 404 ∧ codeString = "Not Found") ∨
        (code = 405 ∧ codeString = "Method Not Allowed") ∨
        (code = 503 ∧ codeString = "Service Unavailable")) ∧
      FTestingServerThread.writeResponse code codeString mimeType message =
        specResponse code codeString mimeType message := by
  have hone : ∃ code codeString mimeType message,
      responses (FTestingServerThread.run dec tryLock fTesting true header s).1 =
        [Event.writeResponse code codeString mimeType message] := by
    rcases run_ok_events dec tryLock fTesting header s with h | h | ⟨c, r, p, h⟩
    · rw [h]; exact ⟨_, _, _, _, rfl⟩
    · rw [h]; exact ⟨_, _, _, _, rfl⟩
    · rw [h]
      have hl := responses_lockLoop tryLock attempts 0
      unfold locked
      split
      · obtain ⟨calls, code, cs, m, b, heq, -, hcalls, -⟩ := dispatch_order fTesting c r p s
        refine ⟨code, cs, m, b, ?_⟩
        have hc : responses calls = [] := by
          unfold responses
          rw [List.filter_eq_nil_iff]
          intro e he
          rcases hcalls e he with ⟨n, rfl⟩ | ⟨n, v, rfl⟩ <;> simp
        simp only [responses, List.filter_append] at hl hc ⊢
        rw [hl, heq, List.filter_append, hc]
        rfl
      · refine ⟨503, "Service Unavailable", "", "Server busy.", ?_⟩
        simp only [responses, List.filter_append] at hl ⊢
        rw [hl]
        rfl
  obtain ⟨code, cs, m, b, hresp⟩ := hone
  have hmem : Event.writeResponse code cs m b ∈
      (FTestingServerThread.run dec tryLock fTesting true header s).1 := by
    have h1 : Event.writeResponse code cs m b ∈
        responses (FTestingServerThread.run dec tryLock fTesting true header s).1 := by
      rw [hresp]; exact List.mem_singleton.mpr rfl
    exact (List.mem_filter.mp h1).1
  refine ⟨code, cs, m, b, hresp, ?_⟩
  rcases run_response_mem dec tryLock fTesting true header s code cs m b hmem with
    ⟨rfl, rfl, rfl, rfl⟩ | ⟨rfl, rfl, rfl, rfl⟩ | ⟨rfl, rfl, rfl, rfl⟩ |
    ⟨rfl, rfl, rfl, rfl, -⟩ | ⟨rfl, rfl, rfl, rfl⟩ | ⟨v, rfl, rfl, rfl, rfl⟩
  · exact ⟨Or.inr (Or.inl ⟨rfl, rfl⟩), by decide⟩
  · exact ⟨Or.inr (Or.inr (Or.inr (Or.inl ⟨rfl, rfl⟩))), by decide⟩
  · exact ⟨Or.inr (Or.inr (Or.inr (Or.inr ⟨rfl, rfl⟩))), by decide⟩
  · exact ⟨Or.inl ⟨rfl, rfl⟩, by decide⟩
  · exact ⟨Or.inr (Or.inr (Or.inl ⟨rfl, rfl⟩)), by decide⟩
  · refine ⟨Or.inl ⟨rfl, rfl⟩, ?_⟩
    unfold FTestingServerThread.writeResponse specResponse
    rw [responseHeader_of_clean 200 "OK" _ _ (by decide) ?_, contentType_eq]
    unfold resultMimeType
    split <;> decide

/-! ## C18: the location line of the details -/

/-- C18, evaluation at the failing input: an entry made by `createLoadError` has a line
that is never negative, 0 when no line is given, so the test `location.line >= 0` of
`getDetailsText` always holds; the details of the warning that `validateTitle` adds
without a line end with the line `Location: Line 0, Column 0`. -/
theorem C18_details_always_have_a_location_line :
    (∀ (info : FzpInfo) (title message : String) (isBlocker : Bool) (line column : Int),
      (info.createLoadError title message isBlocker line column).getLocation.line ≥ 0) ∧
    ((FzpInfo.ofPath "part.fzp").addWarning "Title is missing."
        "The part is missing a title.\n\nAll parts must have a title tag." (-1) (-1)
      ).getDetailsText (fun text => text) =
      "Title is missing.\n─────────────────────────\nThe part is missing a title.\n\nAll parts must have a title tag.\nLocation: Line 0, Column 0\n\n" := by
  constructor
  · intro info title message isBlocker line column
    rw [createLoadError_line]
    split
    · assumption
    · exact le_refl 0
  · decide

/-! ## C19: the text of a load error -/

/-- C19, evaluation at the failing input: the text of every `FLoadError` begins with the
seven characters of `%1: %2` and a newline, followed by the level and the message with
nothing between them; the placeholders are never filled in. The error that `parse` adds
for a file it cannot open is shown whole. -/
theorem C19_toString_keeps_the_placeholders :
    (∀ e : FLoadError, ∃ rest, e.toString =
      "%1: %2\n" ++ ((if e.isBlocker = true then "Error" else "Warning") ++
        (e.getMessage ++ rest))) ∧
    ((FzpInfo.ofPath "part.fzp").createLoadError "Cannot open file"
        "Cannot open file 'part.fzp'." true (-1) (-1)).toString =
      "%1: %2\nErrorCannot open fileDescription: %1\nCannot open file 'part.fzp'.File: %1\npart.fzp" := by
  constructor
  · intro e
    unfold FLoadError.toString FLoadError.isBlocker FLoadError.getMessage
    split_ifs <;> simp only [String.append_assoc] <;>
      first
        | exact ⟨_, rfl⟩
        | exact ⟨"", by simp⟩
  · decide

end Fritzing
